import Mathlib

/-!
The package cloudinfo: provider and region detection.

A shallow embedding of `pkg/cloudinfo` (`types.go`, `nodeinspector.go`,
`imds.go`, `cloudinfo.go`) together with theorems about it.

Modelling conventions

* A Go `string` is a Lean `String`.  The code only compares strings, tests
  prefixes, splits on ASCII separators and concatenates; on those operations
  the sequence of characters behaves like the sequence of UTF-8 bytes.
* A Go `error` is a `GoError`: the text returned by `Error()` plus, for
  `fmt.Errorf` with `%w`, the wrapped cause.
* A call that may hit a run-time panic returns an `Outcome`
  (`ok`, `error` or `panic`); a call that cannot returns an `Except GoError`.
* Iterating over a Go map visits the keys in an unspecified order; the order
  is a parameter (`MapIter`) constrained to be a permutation of the keys.
* The Kubernetes client and the HTTP transport are external collaborators and
  are parameters of the model.
-/

set_option autoImplicit false

namespace cloudinfo

/-! ## Errors and outcomes -/

/-- A Go `error` value: `new msg` is `fmt.Errorf` without `%w`, `wrap msg cause`
is `fmt.Errorf` with a `%w` operand (`msg` is the complete formatted text). -/
inductive GoError where
  | new (msg : String)
  | wrap (msg : String) (cause : GoError)
deriving DecidableEq, Repr

/-- The method `Error()`. -/
def GoError.Error : GoError → String
  | .new msg => msg
  | .wrap msg _ => msg

/-- The result of a call that may return a value, return an error, or panic. -/
inductive Outcome (α : Type) where
  | ok (v : α)
  | error (e : GoError)
  | panic
deriving DecidableEq, Repr

deriving instance DecidableEq for Except

/-- View a non-panicking result as an `Outcome`. -/
def Outcome.ofExcept {α : Type} : Except GoError α → Outcome α
  | .ok v => .ok v
  | .error e => .error e

/-! ## The parts of the Go standard library that the code uses -/

/-- The Go function `strings.HasPrefix`. -/
def HasPrefix (s pre : String) : Bool :=
  pre.data.isPrefixOf s.data

/-- Split `s` at the first occurrence of `sep`: the text before it and the text
after it, or `none` when `sep` does not occur. -/
def cutFirst (sep : List Char) : List Char → Option (List Char × List Char)
  | [] => if sep.isPrefixOf [] then some ([], []) else none
  | c :: t =>
    if sep.isPrefixOf (c :: t) then some ([], (c :: t).drop sep.length)
    else (cutFirst sep t).map (fun p => (c :: p.1, p.2))

/-- The Go function `strings.SplitN` for a non-empty separator and `n ≥ 0`: at
most `n` pieces, the last one being the unsplit remainder. -/
def splitNChars (sep : List Char) : Nat → List Char → List (List Char)
  | 0, _ => []
  | 1, s => [s]
  | n + 2, s =>
    match cutFirst sep s with
    | none => [s]
    | some (a, b) => a :: splitNChars sep (n + 1) b

/-- The Go function `strings.SplitN` (non-empty separator, `n ≥ 0`). -/
def SplitN (s sep : String) (n : Nat) : List String :=
  (splitNChars sep.data n s.data).map String.mk

/-- The Go function `strings.Join`. -/
def Join (elems : List String) (sep : String) : String :=
  sep.intercalate elems

/-- The text `fmt` prints for a `[]string` under the verb `%v`: the elements
separated by single spaces, inside square brackets. -/
def fmtSlice (xs : List String) : String :=
  "[" ++ Join xs " " ++ "]"

/-! ## types.go -/

/-- The struct `CloudInfo`: cloud provider and region of the cluster. -/
structure CloudInfo where
  Provider : String
  Region : String
  Source : String
deriving DecidableEq, Repr

/-- The struct `Options`. -/
structure Options where
  UseNodeLabels : Bool
  UseIMDS : Bool
deriving DecidableEq, Repr

/-! ## nodeinspector.go -/

/-- The constant `RegionLabel`. -/
def RegionLabel : String := "topology.kubernetes.io/region"

/-- ParseProviderID parses a provider ID and returns the cloud provider name. -/
def ParseProviderID (providerID : String) : Except GoError String :=
  if providerID = "" then
    .error (.new "empty provider ID")
  else
    let parts := SplitN providerID "://" 2
    if parts.length ≠ 2 then
      .error (.new ("unknown provider ID format: " ++ providerID))
    else
      match parts.head? with
      | some "aws" => .ok "aws"
      | some "azure" => .ok "azure"
      | some "gce" => .ok "gcp"
      | _ => .error (.new ("unknown provider ID format: " ++ providerID))

/-- The part of a Kubernetes node object that the code reads: its labels (a
map, here an association list read by key) and `Spec.ProviderID`. -/
structure Node where
  Labels : List (String × String)
  ProviderID : String
deriving DecidableEq, Repr

/-- The map read `node.Labels[key]`: the zero value `""` when the key is absent. -/
def Node.label (node : Node) (key : String) : String :=
  (node.Labels.lookup key).getD ""

/-- The cluster client, as far as the code uses it: the answer of
`client.CoreV1().Nodes().List(ctx, metav1.ListOptions{})`. -/
structure Client where
  listNodes : Except GoError (List Node)

/-- NodeAttributes represents the attributes of the nodes in the cluster. -/
structure NodeAttributes where
  Regions : List String
  ProviderIDs : List String
deriving DecidableEq, Repr

/-- The body of the loop over `nodes.Items` in `GetNodeAttributes`. -/
def nodeStep (attributes : NodeAttributes) (node : Node) : NodeAttributes :=
  let regionLabel := node.label RegionLabel
  let providerID := node.ProviderID
  let attributes :=
    if regionLabel ≠ "" ∧ ¬ attributes.Regions.contains regionLabel then
      { attributes with Regions := attributes.Regions ++ [regionLabel] }
    else attributes
  if providerID ≠ "" then
    { attributes with ProviderIDs := attributes.ProviderIDs ++ [providerID] }
  else attributes

/-- GetNodeAttributes retrieves nodes and their attributes from the cluster. -/
def GetNodeAttributes (client : Client) : Except GoError NodeAttributes :=
  match client.listNodes with
  | .error err => .error err
  | .ok nodes =>
    if nodes.length = 0 then .error (.new "no nodes found")
    else .ok (nodes.foldl nodeStep { Regions := [], ProviderIDs := [] })

/-- The order in which `for p := range providers` visits the keys of a map:
unspecified by the language, but every key is visited exactly once. -/
structure MapIter where
  order : List String → List String
  perm : ∀ keys, (order keys).Perm keys

/-- The assignment `providers[k] = struct{}{}` on a map used as a set; the map
is represented by the list of its keys, each once. -/
def mapInsert (providers : List String) (k : String) : List String :=
  if providers.contains k then providers else providers ++ [k]

/-- The first loop of `ParseProviderIDs`: the key set built from the
identifiers, or the error of the first identifier with no known prefix. -/
def collectProviders : List String → List String → Except GoError (List String)
  | providers, [] => .ok providers
  | providers, providerID :: rest =>
    if HasPrefix providerID "aws://" then
      collectProviders (mapInsert providers "aws") rest
    else if HasPrefix providerID "azure://" then
      collectProviders (mapInsert providers "azure") rest
    else if HasPrefix providerID "gce://" then
      collectProviders (mapInsert providers "gcp") rest
    else
      .error (.new ("provider ID format unknown: " ++ providerID))

/-- ParseProviderIDs parses a list of provider IDs and returns the unique cloud
provider name.  The read `result[0]` panics when `result` is empty. -/
def ParseProviderIDs (it : MapIter) (providerIDs : List String) : Outcome String :=
  match collectProviders [] providerIDs with
  | .error err => .error err
  | .ok providers =>
    let result := it.order providers
    if result.length > 1 then
      .error (.new ("multiple cloud providers found: " ++ Join result ", "))
    else
      match result[0]? with
      | some p => .ok p
      | none => .panic

/-- DetectNodeCloudInfo detects cloud provider and region using node labels and
`spec.ProviderID`. -/
def DetectNodeCloudInfo (it : MapIter) (client : Client) : Outcome CloudInfo :=
  match GetNodeAttributes client with
  | .error err => .error err
  | .ok attributes =>
    match ParseProviderIDs it attributes.ProviderIDs with
    | .panic => .panic
    | .error err => .error err
    | .ok provider =>
      if attributes.Regions.length ≠ 1 then
        .error (.new ("multiple regions found: " ++ fmtSlice attributes.Regions))
      else
        match attributes.Regions[0]? with
        | some region => .ok { Provider := provider, Region := region, Source := "node-labels" }
        | none => .panic

/-! ## imds.go -/

/-- The part of an `http.Request` that the code sets. -/
structure Request where
  Method : String
  URL : String
  Header : List (String × String)
deriving DecidableEq, Repr

/-- The part of an `http.Response` that the code reads: the status code and
what `io.ReadAll(resp.Body)` yields. -/
structure Response where
  StatusCode : Nat
  Body : Except GoError String

/-- IMDSClient is an interface for making HTTP requests to IMDS endpoints. -/
structure IMDSClient where
  Do : Request → Except GoError Response

/-- IMDSConfig holds the configuration for IMDS endpoints. -/
structure IMDSConfig where
  AWSEndpoint : String
  AzureEndpoint : String
  GCPEndpoint : String
deriving DecidableEq, Repr

/-- DefaultIMDSConfig returns the default IMDS configuration. -/
def DefaultIMDSConfig : IMDSConfig :=
  { AWSEndpoint := "http://169.254.169.254/latest/meta-data/placement/region"
    AzureEndpoint := "http://169.254.169.254/metadata/instance/compute/location?api-version=2021-02-01"
    GCPEndpoint := "http://metadata.google.internal/computeMetadata/v1/instance/zone" }

/-- Library behaviour the code relies on and that is not modelled further:
`urlError u` is the error of `url.Parse u` (if any), and `decodeLocation body`
is what `json.NewDecoder(body).Decode(&result)` leaves in `result.Location`,
or its error. -/
structure Lib where
  urlError : String → Option GoError
  decodeLocation : Except GoError String → Except GoError String

/-- The call `http.NewRequestWithContext(ctx, "GET", url, nil)` with a non-nil
context: it fails exactly when the URL does not parse. -/
def NewRequestWithContext (lib : Lib) (method url : String) : Except GoError Request :=
  match lib.urlError url with
  | some err => .error err
  | none => .ok { Method := method, URL := url, Header := [] }

/-- The method `req.Header.Set`. -/
def Request.setHeader (req : Request) (key value : String) : Request :=
  { req with Header := (key, value) :: req.Header.filter (fun kv => kv.1 ≠ key) }

/-- The test `err == nil && resp.StatusCode == http.StatusOK`. -/
def okResponse : Except GoError Response → Option Response
  | .ok resp => if resp.StatusCode = 200 then some resp else none
  | .error _ => none

/-- The Go function `strings.Split` for a non-empty separator: `SplitN` with a
bound that is never reached (there are at most `len(s)` separators). -/
def Split (s sep : String) : List String :=
  SplitN s sep (s.length + 1)

/-- The GCP branch after a 200 answer: extract the region from the zone path. -/
def gcpRegion (resp : Response) : Except GoError CloudInfo :=
  match resp.Body with
  | .error err => .error (.wrap ("failed to read GCP zone: " ++ err.Error) err)
  | .ok zone =>
    let parts := Split zone "/"
    if parts.length < 4 then
      .error (.new ("invalid GCP zone format: " ++ zone))
    else
      let zoneName := parts.getLastD ""
      let regionParts := Split zoneName "-"
      if regionParts.length < 2 then
        .error (.new ("invalid GCP zone format: " ++ zoneName))
      else
        let region := Join regionParts.dropLast "-"
        .ok { Provider := "gcp", Region := region, Source := "imds" }

/-- DetectIMDSCloudInfoWithClient detects cloud provider and region using IMDS
with a custom client.  The first component lists the requests handed to
`client.Do`, in order. -/
def DetectIMDSCloudInfoWithClient (lib : Lib) (client : IMDSClient) (config : IMDSConfig) :
    List Request × Except GoError CloudInfo :=
  -- Try AWS first
  match NewRequestWithContext lib "GET" config.AWSEndpoint with
  | .error err => ([], .error (.wrap ("failed to create AWS IMDS request: " ++ err.Error) err))
  | .ok req1 =>
    match okResponse (client.Do req1) with
    | some resp =>
      match resp.Body with
      | .error err => ([req1], .error (.wrap ("failed to read AWS region: " ++ err.Error) err))
      | .ok region => ([req1], .ok { Provider := "aws", Region := region, Source := "imds" })
    | none =>
      -- Try Azure next
      match NewRequestWithContext lib "GET" config.AzureEndpoint with
      | .error err =>
        ([req1], .error (.wrap ("failed to create Azure IMDS request: " ++ err.Error) err))
      | .ok req =>
        let req2 := req.setHeader "Metadata" "true"
        match okResponse (client.Do req2) with
        | some resp =>
          match lib.decodeLocation resp.Body with
          | .error err =>
            ([req1, req2], .error (.wrap ("failed to decode Azure location: " ++ err.Error) err))
          | .ok location =>
            ([req1, req2], .ok { Provider := "azure", Region := location, Source := "imds" })
        | none =>
          -- Try GCP last
          match NewRequestWithContext lib "GET" config.GCPEndpoint with
          | .error err =>
            ([req1, req2],
              .error (.wrap ("failed to create GCP IMDS request: " ++ err.Error) err))
          | .ok req =>
            let req3 := req.setHeader "Metadata-Flavor" "Google"
            match okResponse (client.Do req3) with
            | some resp => ([req1, req2, req3], gcpRegion resp)
            | none =>
              ([req1, req2, req3],
                .error (.new "failed to detect cloud provider using IMDS"))

/-- DetectIMDSCloudInfo detects cloud provider and region using IMDS;
`defaultClient` stands for the client returned by `DefaultIMDSClient()`. -/
def DetectIMDSCloudInfo (lib : Lib) (defaultClient : IMDSClient) :
    List Request × Except GoError CloudInfo :=
  DetectIMDSCloudInfoWithClient lib defaultClient DefaultIMDSConfig

/-! ## cloudinfo.go -/

/-- DetectCloudInfo detects cloud provider and region using the specified
methods.  The first component lists the HTTP requests issued. -/
def DetectCloudInfo (lib : Lib) (it : MapIter) (defaultClient : IMDSClient)
    (client : Client) (opts : Options) : List Request × Outcome CloudInfo :=
  if opts.UseNodeLabels then
    ([], DetectNodeCloudInfo it client)
  else if opts.UseIMDS then
    let r := DetectIMDSCloudInfo lib defaultClient
    (r.1, Outcome.ofExcept r.2)
  else
    ([], .error (.new "no cloud info detection method specified"))

/-! ## Vocabulary of the specification -/

/-- The recognised schemes with the canonical provider name each maps to. -/
def recognisedSchemes : List (String × String) :=
  [("aws://", "aws"), ("azure://", "azure"), ("gce://", "gcp")]

/-- The identifier `id` carries the scheme of provider `p`. -/
def HasScheme (id p : String) : Prop :=
  ∃ scheme rest, (scheme, p) ∈ recognisedSchemes ∧ id = scheme ++ rest

/-- The distinct elements of a list, each at the place of its first
occurrence. -/
def firstSeen : List String → List String
  | [] => []
  | x :: xs => x :: (firstSeen xs).filter (fun y => y ≠ x)

/-- The non-empty region labels of the nodes, in node order. -/
def regionLabels (nodes : List Node) : List String :=
  (nodes.map (fun node => node.label RegionLabel)).filter (fun l => l ≠ "")

/-- The non-empty provider identifiers of the nodes, in node order. -/
def providerIDs (nodes : List Node) : List String :=
  (nodes.map (fun node => node.ProviderID)).filter (fun id => id ≠ "")

/-- The case taken by the `switch` of `ParseProviderIDs` for one identifier:
the provider name it records, or `none` for the default case. -/
def switchCase (providerID : String) : Option String :=
  if HasPrefix providerID "aws://" then some "aws"
  else if HasPrefix providerID "azure://" then some "azure"
  else if HasPrefix providerID "gce://" then some "gcp"
  else none

/-- The request the prober sends to the AWS endpoint: a GET with no header. -/
def awsRequest (config : IMDSConfig) : Request :=
  { Method := "GET", URL := config.AWSEndpoint, Header := [] }

/-- The request the prober sends to the Azure endpoint: a GET with the header
`Metadata: true`. -/
def azureRequest (config : IMDSConfig) : Request :=
  { Method := "GET", URL := config.AzureEndpoint, Header := [("Metadata", "true")] }

/-- The request the prober sends to the GCP endpoint: a GET with the header
`Metadata-Flavor: Google`. -/
def gcpRequest (config : IMDSConfig) : Request :=
  { Method := "GET", URL := config.GCPEndpoint, Header := [("Metadata-Flavor", "Google")] }

/-- An attempt misses: the transport returns an error, or a response whose
status is not 200. -/
def Misses (client : IMDSClient) (req : Request) : Prop :=
  ∀ resp, client.Do req = .ok resp → resp.StatusCode ≠ 200

/-- The error that ends the probe when no endpoint answered. -/
def imdsExhausted : GoError :=
  .new "failed to detect cloud provider using IMDS"

/-- The reference aggregate of a node list, in the words of the specification:
`Regions` is the list of non-empty region labels with every repeat after the
first occurrence removed, `ProviderIDs` the list of non-empty provider
identifiers in node order, duplicates retained. -/
def specNodeAttributes (nodes : List Node) : NodeAttributes :=
  { Regions := firstSeen (regionLabels nodes), ProviderIDs := providerIDs nodes }

/-- The canonical provider names. -/
def providerNames : List String := ["aws", "azure", "gcp"]

/-- Two errors of the node-label detection are of the same kind: both "no nodes
found", both an unknown provider identifier, both multiple providers, or both
multiple regions; the texts after the fixed part may differ. -/
def SameKind (e e' : GoError) : Prop :=
  (e = .new "no nodes found" ∧ e' = .new "no nodes found") ∨
  (∃ id id' : String, e = .new ("provider ID format unknown: " ++ id) ∧
    e' = .new ("provider ID format unknown: " ++ id')) ∨
  (∃ names names' : String, e = .new ("multiple cloud providers found: " ++ names) ∧
    e' = .new ("multiple cloud providers found: " ++ names')) ∨
  (∃ regions regions' : String, e = .new ("multiple regions found: " ++ regions) ∧
    e' = .new ("multiple regions found: " ++ regions'))

/-! ## Sample inputs, taken from the repository's tests -/

/-- A map iteration that visits the keys in insertion order. -/
def insertionOrder : MapIter :=
  { order := fun keys => keys, perm := fun keys => List.Perm.refl keys }

/-- A map iteration that visits the keys in reverse insertion order. -/
def reverseOrder : MapIter :=
  { order := fun keys => keys.reverse, perm := fun keys => List.reverse_perm keys }

/-- The AWS node of `node_label_test.go` (region us-west-2). -/
def awsWestNode : Node :=
  { Labels := [("topology.kubernetes.io/region", "us-west-2")]
    ProviderID := "aws:///us-west-2a/i-1234567890abcdef0" }

/-- The second AWS node of `node_label_test.go` (region us-east-1). -/
def awsEastNode : Node :=
  { Labels := [("topology.kubernetes.io/region", "us-east-1")]
    ProviderID := "aws:///us-east-1a/i-0987654321fedcba0" }

/-- The Azure node of `node_label_test.go` (region eastus). -/
def azureNode : Node :=
  { Labels := [("topology.kubernetes.io/region", "eastus")]
    ProviderID := "azure:///subscriptions/12345678-1234-1234-1234-123456789012/resourceGroups/myResourceGroup/providers/Microsoft.Compute/virtualMachines/myVM" }

/-- The node of `node_label_test.go` whose provider identifier is unknown. -/
def unknownNode : Node :=
  { Labels := [("topology.kubernetes.io/region", "us-west-2")]
    ProviderID := "unknown://format" }

/-- A node with a region label and no provider identifier (the field
`Spec.ProviderID` is optional and empty until a cloud provider sets it). -/
def bareNode : Node :=
  { Labels := [("topology.kubernetes.io/region", "us-west-2")]
    ProviderID := "" }

/-- A library in which every URL parses and whose JSON decoder knows the one
body of `imds_test.go`, with the line feed that `json.Encoder` appends. -/
def testLib : Lib :=
  { urlError := fun _ => none
    decodeLocation := fun body =>
      match body with
      | .error err => .error err
      | .ok text =>
        if text = "\x7b\"location\":\"eastus\"\x7d\n" then .ok "eastus"
        else .error (.new "invalid character looking for beginning of value") }

/-- A library in which the URL "http://[::1" does not parse. -/
def strictLib : Lib :=
  { urlError := fun u =>
      if u = "http://[::1" then some (.new "parse \"http://[::1\": missing ']' in host")
      else none
    decodeLocation := testLib.decodeLocation }

/-- The endpoints of `imds_test.go`, on a local test server. -/
def testConfig : IMDSConfig :=
  { AWSEndpoint := "http://127.0.0.1:8080/latest/meta-data/placement/region"
    AzureEndpoint := "http://127.0.0.1:8080/metadata/instance/compute/location?api-version=2021-02-01"
    GCPEndpoint := "http://127.0.0.1:8080/computeMetadata/v1/instance/zone" }

/-- A test server that answers 200 with `body` at `url` and 404 elsewhere. -/
def stubClient (url body : String) : IMDSClient :=
  { Do := fun req =>
      if req.URL = url then .ok { StatusCode := 200, Body := .ok body }
      else .ok { StatusCode := 404, Body := .ok "" } }

/-- A test server that answers 200 with `body` at every URL. -/
def allOKClient (body : String) : IMDSClient :=
  { Do := fun _ => .ok { StatusCode := 200, Body := .ok body } }

/-- A transport on which every request fails. -/
def downClient : IMDSClient :=
  { Do := fun _ => .error (.new "dial tcp 169.254.169.254:80: i/o timeout") }

/-- A configuration whose AWS endpoint does not parse. -/
def badAWSConfig : IMDSConfig :=
  { testConfig with AWSEndpoint := "http://[::1" }

/-- A configuration whose Azure endpoint does not parse. -/
def badAzureConfig : IMDSConfig :=
  { testConfig with AzureEndpoint := "http://[::1" }

/-- A configuration whose GCP endpoint does not parse. -/
def badGCPConfig : IMDSConfig :=
  { testConfig with GCPEndpoint := "http://[::1" }

/-- A test server that answers 404 at `url` and 200 with `body` at every other
URL. -/
def exceptClient (url body : String) : IMDSClient :=
  { Do := fun req =>
      if req.URL = url then .ok { StatusCode := 404, Body := .ok "" }
      else .ok { StatusCode := 200, Body := .ok body } }

/-! ## Lemmas on the string functions -/

theorem cutFirst_sound (sep : List Char) :
    ∀ (s a b : List Char), cutFirst sep s = some (a, b) → s = a ++ sep ++ b := by
  intro s
  induction s with
  | nil =>
    intro a b h
    cases sep with
    | nil => simp [cutFirst] at h; simp [h]
    | cons c t => simp [cutFirst, List.isPrefixOf] at h
  | cons c t ih =>
    intro a b h
    unfold cutFirst at h
    split at h
    · rename_i hp
      have hp2 := List.isPrefixOf_iff_prefix.mp hp
      obtain ⟨r, hr⟩ := hp2
      simp at h
      obtain ⟨rfl, rfl⟩ := h
      rw [← hr]
      simp
    · cases hc : cutFirst sep t with
      | none => simp [hc] at h
      | some p =>
        obtain ⟨a1, b1⟩ := p
        simp [hc] at h
        obtain ⟨rfl, rfl⟩ := h
        have := ih a1 b1 hc
        simp [this]

theorem cutFirst_aws (rest : List Char) :
    cutFirst "://".data ("aws://".data ++ rest) = some ("aws".data, rest) := by
  simp [cutFirst, List.isPrefixOf]

theorem cutFirst_azure (rest : List Char) :
    cutFirst "://".data ("azure://".data ++ rest) = some ("azure".data, rest) := by
  simp [cutFirst, List.isPrefixOf]

theorem cutFirst_gce (rest : List Char) :
    cutFirst "://".data ("gce://".data ++ rest) = some ("gce".data, rest) := by
  simp [cutFirst, List.isPrefixOf]

theorem cutFirst_none (sep : List Char) :
    ∀ (s : List Char), cutFirst sep s = none → ∀ a b, s ≠ a ++ sep ++ b := by
  intro s
  induction s with
  | nil =>
    intro h a b hs
    cases sep with
    | nil => simp [cutFirst] at h
    | cons c t => simp at hs
  | cons c t ih =>
    intro h a b hs
    unfold cutFirst at h
    split at h
    · simp at h
    · rename_i hp
      cases a with
      | nil =>
        apply hp
        apply List.isPrefixOf_iff_prefix.mpr
        exact ⟨b, by simpa using hs.symm⟩
      | cons c1 a1 =>
        simp at hs
        cases hc : cutFirst sep t with
        | none => exact ih hc a1 b (by simpa using hs.2)
        | some p => simp [hc] at h

theorem cutFirst_first (sep : List Char) :
    ∀ (s a b : List Char), cutFirst sep s = some (a, b) →
      ∀ a1 b1, s = a1 ++ sep ++ b1 → a.length ≤ a1.length := by
  intro s
  induction s with
  | nil =>
    intro a b h a1 b1 hs
    cases sep with
    | nil => simp [cutFirst] at h; simp [h]
    | cons c t => simp at hs
  | cons c t ih =>
    intro a b h a1 b1 hs
    unfold cutFirst at h
    split at h
    · simp at h
      rw [h.1]
      exact Nat.zero_le _
    · rename_i hp
      cases a1 with
      | nil =>
        exfalso
        apply hp
        apply List.isPrefixOf_iff_prefix.mpr
        exact ⟨b1, by simpa using hs.symm⟩
      | cons c1 a2 =>
        simp at hs
        cases hc : cutFirst sep t with
        | none => simp [hc] at h
        | some p =>
          obtain ⟨a3, b3⟩ := p
          simp [hc] at h
          have := ih a3 b3 hc a2 b1 (by simpa using hs.2)
          rw [← h.1]
          simpa using this

/-! ## ParseProviderID -/

theorem ParseProviderID_eq (s : String) :
    ParseProviderID s =
      if s = "" then .error (.new "empty provider ID")
      else match cutFirst "://".data s.data with
        | none => .error (.new ("unknown provider ID format: " ++ s))
        | some (a, _) =>
          if a = "aws".data then .ok "aws"
          else if a = "azure".data then .ok "azure"
          else if a = "gce".data then .ok "gcp"
          else .error (.new ("unknown provider ID format: " ++ s)) := by
  unfold ParseProviderID
  split
  · rfl
  · cases hc : cutFirst "://".data s.data with
    | none => simp [SplitN, splitNChars, hc]
    | some p =>
      obtain ⟨a, b⟩ := p
      simp only [SplitN, splitNChars, hc, List.map, List.length, List.head?]
      rw [if_neg (by decide)]
      by_cases h1 : a = "aws".data
      · subst h1; rfl
      by_cases h2 : a = "azure".data
      · subst h2; rfl
      by_cases h3 : a = "gce".data
      · subst h3; rfl
      rw [if_neg h1, if_neg h2, if_neg h3]
      split
      · rename_i h; exact absurd (by injection h with h; exact congrArg String.data h) h1
      · rename_i h; exact absurd (by injection h with h; exact congrArg String.data h) h2
      · rename_i h; exact absurd (by injection h with h; exact congrArg String.data h) h3
      · rfl

theorem append_ne_empty_of_left (a b : String) (h : a ≠ "") : a ++ b ≠ "" := by
  intro e
  apply h
  have := congrArg String.data e
  simp only [String.data_append] at this
  apply String.ext
  simp only [List.append_eq_nil] at this
  exact this.1

theorem ParseProviderID_aws (rest : String) : ParseProviderID ("aws://" ++ rest) = .ok "aws" := by
  rw [ParseProviderID_eq, if_neg (append_ne_empty_of_left _ _ (by decide))]
  rw [String.data_append, cutFirst_aws]
  rfl

theorem ParseProviderID_azure (rest : String) :
    ParseProviderID ("azure://" ++ rest) = .ok "azure" := by
  rw [ParseProviderID_eq, if_neg (append_ne_empty_of_left _ _ (by decide))]
  rw [String.data_append, cutFirst_azure]
  rfl

theorem ParseProviderID_gce (rest : String) : ParseProviderID ("gce://" ++ rest) = .ok "gcp" := by
  rw [ParseProviderID_eq, if_neg (append_ne_empty_of_left _ _ (by decide))]
  rw [String.data_append, cutFirst_gce]
  rfl

theorem ParseProviderID_ok_cases (s p : String) (h : ParseProviderID s = .ok p) :
    (p = "aws" ∧ ∃ rest, s = "aws://" ++ rest) ∨
    (p = "azure" ∧ ∃ rest, s = "azure://" ++ rest) ∨
    (p = "gcp" ∧ ∃ rest, s = "gce://" ++ rest) := by
  rw [ParseProviderID_eq] at h
  split at h
  · cases h
  · cases hc : cutFirst "://".data s.data with
    | none => rw [hc] at h; cases h
    | some q =>
      obtain ⟨a, b⟩ := q
      have hs := cutFirst_sound _ _ _ _ hc
      rw [hc] at h
      simp only at h
      split at h
      · rename_i ha
        injection h with h
        refine Or.inl ⟨h.symm, ⟨b⟩, ?_⟩
        apply String.ext
        rw [String.data_append, hs, ha]
        rfl
      · split at h
        · rename_i ha
          injection h with h
          refine Or.inr (Or.inl ⟨h.symm, ⟨b⟩, ?_⟩)
          apply String.ext
          rw [String.data_append, hs, ha]
          rfl
        · split at h
          · rename_i ha
            injection h with h
            refine Or.inr (Or.inr ⟨h.symm, ⟨b⟩, ?_⟩)
            apply String.ext
            rw [String.data_append, hs, ha]
            rfl
          · cases h

/-- C1: `ParseProviderID s` returns "aws" exactly when `s` begins with
"aws://", "azure" exactly when `s` begins with "azure://", "gcp" exactly when
`s` begins with "gce://", and it never returns any other name (so it succeeds
for no other input). -/
theorem ParseProviderID_ok_iff_scheme (s : String) :
    (ParseProviderID s = .ok "aws" ↔ ∃ rest, s = "aws://" ++ rest) ∧
    (ParseProviderID s = .ok "azure" ↔ ∃ rest, s = "azure://" ++ rest) ∧
    (ParseProviderID s = .ok "gcp" ↔ ∃ rest, s = "gce://" ++ rest) ∧
    (∀ p, ParseProviderID s = .ok p → p = "aws" ∨ p = "azure" ∨ p = "gcp") := by
  refine ⟨⟨fun h => ?_, fun ⟨r, hr⟩ => hr ▸ ParseProviderID_aws r⟩,
    ⟨fun h => ?_, fun ⟨r, hr⟩ => hr ▸ ParseProviderID_azure r⟩,
    ⟨fun h => ?_, fun ⟨r, hr⟩ => hr ▸ ParseProviderID_gce r⟩, fun p h => ?_⟩
  · rcases ParseProviderID_ok_cases s _ h with ⟨_, hr⟩ | ⟨hp, _⟩ | ⟨hp, _⟩
    · exact hr
    · exact absurd hp (by decide)
    · exact absurd hp (by decide)
  · rcases ParseProviderID_ok_cases s _ h with ⟨hp, _⟩ | ⟨_, hr⟩ | ⟨hp, _⟩
    · exact absurd hp (by decide)
    · exact hr
    · exact absurd hp (by decide)
  · rcases ParseProviderID_ok_cases s _ h with ⟨hp, _⟩ | ⟨hp, _⟩ | ⟨_, hr⟩
    · exact absurd hp (by decide)
    · exact absurd hp (by decide)
    · exact hr
  · rcases ParseProviderID_ok_cases s _ h with ⟨hp, _⟩ | ⟨hp, _⟩ | ⟨hp, _⟩
    · exact Or.inl hp
    · exact Or.inr (Or.inl hp)
    · exact Or.inr (Or.inr hp)

/-- The text before the first occurrence of a separator is determined by the
string: the piece returned by `cutFirst` is any piece that is followed by the
separator and is no longer than every other such piece. -/
theorem cutFirst_unique (sep s a0 b0 a b : List Char) (hc : cutFirst sep s = some (a0, b0))
    (hs : s = a ++ sep ++ b)
    (hmin : ∀ a1 b1, s = a1 ++ sep ++ b1 → a.length ≤ a1.length) : a = a0 := by
  have h0 := cutFirst_sound sep s a0 b0 hc
  have l1 : a.length ≤ a0.length := hmin a0 b0 h0
  have l2 : a0.length ≤ a.length := cutFirst_first sep s a0 b0 hc a b hs
  have e : a ++ (sep ++ b) = a0 ++ (sep ++ b0) := by
    rw [← List.append_assoc, ← List.append_assoc, ← hs, ← h0]
  exact (List.append_inj e (Nat.le_antisymm l1 l2)).1

theorem unknown_ne_empty (s : String) :
    GoError.new ("unknown provider ID format: " ++ s) ≠ GoError.new "empty provider ID" := by
  intro h
  injection h with h
  have := congrArg String.data h
  rw [String.data_append] at this
  have h2 := congrArg List.head? this
  simp at h2

/-- C2: the empty string fails with "empty provider ID"; a non-empty string
without "://", or whose text before the first "://" is none of aws, azure, gce,
fails with "unknown provider ID format: " followed by the string; and no
non-empty string yields the empty-string error. -/
theorem ParseProviderID_error_cases (s : String) :
    ParseProviderID "" = .error (.new "empty provider ID") ∧
    (s ≠ "" →
      ((¬ ∃ a b : String, s = a ++ "://" ++ b) ∨
       (∃ a b : String, s = a ++ "://" ++ b ∧
          (∀ a1 b1 : String, s = a1 ++ "://" ++ b1 → a.length ≤ a1.length) ∧
          a ≠ "aws" ∧ a ≠ "azure" ∧ a ≠ "gce")) →
      ParseProviderID s = .error (.new ("unknown provider ID format: " ++ s))) ∧
    (s ≠ "" → ParseProviderID s ≠ .error (.new "empty provider ID")) := by
  refine ⟨by decide, fun hne h => ?_, fun hne => ?_⟩
  · rw [ParseProviderID_eq, if_neg hne]
    cases hc : cutFirst "://".data s.data with
    | none => rfl
    | some q =>
      obtain ⟨a0, b0⟩ := q
      have h0 := cutFirst_sound _ _ _ _ hc
      rcases h with h | ⟨a, b, hs, hmin, n1, n2, n3⟩
      · exact absurd ⟨⟨a0⟩, ⟨b0⟩, String.ext (by simp only [String.data_append]; exact h0)⟩ h
      · have hs1 : s.data = a.data ++ "://".data ++ b.data := by
          rw [hs]; simp only [String.data_append]
        have ha : a.data = a0 := by
          apply cutFirst_unique _ _ _ _ _ _ hc hs1
          intro a1 b1 h1
          have := hmin ⟨a1⟩ ⟨b1⟩ (String.ext (by simp only [String.data_append]; exact h1))
          exact this
        have e1 : a0 ≠ "aws".data := fun e => n1 (String.ext (ha.trans e))
        have e2 : a0 ≠ "azure".data := fun e => n2 (String.ext (ha.trans e))
        have e3 : a0 ≠ "gce".data := fun e => n3 (String.ext (ha.trans e))
        simp only [if_neg e1, if_neg e2, if_neg e3]
  · rw [ParseProviderID_eq, if_neg hne]
    cases hc : cutFirst "://".data s.data with
    | none =>
      intro h
      injection h with h
      exact unknown_ne_empty s h
    | some q =>
      obtain ⟨a0, b0⟩ := q
      simp only
      split
      · intro h; cases h
      · split
        · intro h; cases h
        · split
          · intro h; cases h
          · intro h
            injection h with h
            exact unknown_ne_empty s h

theorem not_contains_of_cutFirst_none (s sep : String)
    (h : cutFirst sep.data s.data = none) : ¬ ∃ a b : String, s = a ++ sep ++ b := by
  rintro ⟨a, b, hs⟩
  apply cutFirst_none _ _ h a.data b.data
  rw [hs]
  simp only [String.data_append]

/-- Witness for C2 at the identifier "aws:/x", which is non-empty and has no
separator "://". -/
theorem ParseProviderID_error_cases_witness :
    "aws:/x" ≠ "" ∧ (¬ ∃ a b : String, "aws:/x" = a ++ "://" ++ b) ∧
    ParseProviderID "aws:/x" = .error (.new "unknown provider ID format: aws:/x") :=
  ⟨by decide, not_contains_of_cutFirst_none _ _ (by decide),
    (ParseProviderID_error_cases "aws:/x").2.1 (by decide)
      (Or.inl (not_contains_of_cutFirst_none _ _ (by decide)))⟩

/-! ## GetNodeAttributes -/

theorem nodeStep_eq (R P : List String) (node : Node) :
    nodeStep { Regions := R, ProviderIDs := P } node =
      { Regions := if node.label RegionLabel ≠ "" ∧ ¬ node.label RegionLabel ∈ R
          then R ++ [node.label RegionLabel] else R
        ProviderIDs := if node.ProviderID ≠ "" then P ++ [node.ProviderID] else P } := by
  unfold nodeStep
  by_cases h1 : node.label RegionLabel ≠ "" ∧ ¬ node.label RegionLabel ∈ R <;>
    by_cases h2 : node.ProviderID ≠ "" <;> simp [h1, h2]

theorem foldl_nodeStep_ProviderIDs (nodes : List Node) :
    ∀ (R P : List String),
      (nodes.foldl nodeStep { Regions := R, ProviderIDs := P }).ProviderIDs =
        P ++ providerIDs nodes := by
  induction nodes with
  | nil => intro R P; simp [providerIDs]
  | cons node rest ih =>
    intro R P
    rw [List.foldl_cons, nodeStep_eq, ih]
    by_cases h2 : node.ProviderID = ""
    · simp [h2, providerIDs]
    · simp [h2, providerIDs]

theorem filter_ne_filter_not_mem (R : List String) (l : String) (xs : List String) :
    (xs.filter (fun y => y ≠ l)).filter (fun y => ¬ y ∈ R) =
      xs.filter (fun y => ¬ y ∈ R ++ [l]) := by
  rw [List.filter_filter]
  apply List.filter_congr
  intro y _
  by_cases hy : y ∈ R <;> by_cases hl : y = l <;> simp [hy, hl]

theorem filter_ne_of_mem (R : List String) (l : String) (hl : l ∈ R) (xs : List String) :
    (xs.filter (fun y => y ≠ l)).filter (fun y => ¬ y ∈ R) = xs.filter (fun y => ¬ y ∈ R) := by
  rw [List.filter_filter]
  apply List.filter_congr
  intro y _
  by_cases hy : y ∈ R
  · simp [hy]
  · have : y ≠ l := fun e => hy (e ▸ hl)
    simp [hy, this]

theorem regionLabels_cons (node : Node) (rest : List Node) :
    regionLabels (node :: rest) =
      if node.label RegionLabel = "" then regionLabels rest
      else node.label RegionLabel :: regionLabels rest := by
  by_cases h : node.label RegionLabel = "" <;> simp [regionLabels, h]

theorem foldl_nodeStep_Regions (nodes : List Node) :
    ∀ (R P : List String),
      (nodes.foldl nodeStep { Regions := R, ProviderIDs := P }).Regions =
        R ++ (firstSeen (regionLabels nodes)).filter (fun y => ¬ y ∈ R) := by
  induction nodes with
  | nil => intro R P; simp [regionLabels, firstSeen]
  | cons node rest ih =>
    intro R P
    rw [List.foldl_cons, nodeStep_eq, ih, regionLabels_cons]
    by_cases h1 : node.label RegionLabel = ""
    · simp [h1]
    · by_cases h2 : node.label RegionLabel ∈ R
      · rw [if_neg (by simp [h2]), if_neg h1, firstSeen,
          List.filter_cons_of_neg (by simpa using h2), filter_ne_of_mem R _ h2]
      · rw [if_pos ⟨h1, h2⟩, if_neg h1, firstSeen,
          List.filter_cons_of_pos (by simpa using h2), filter_ne_filter_not_mem]
        simp

/-- The aggregate of a non-empty node list, in closed form. -/
theorem GetNodeAttributes_ok (nodes : List Node) (hne : nodes ≠ []) :
    GetNodeAttributes ⟨.ok nodes⟩ =
      .ok { Regions := firstSeen (regionLabels nodes), ProviderIDs := providerIDs nodes } := by
  have hl : nodes.length ≠ 0 := fun h => hne (List.length_eq_zero.mp h)
  simp only [GetNodeAttributes, if_neg hl]
  congr 1
  have h1 := foldl_nodeStep_Regions nodes [] []
  have h2 := foldl_nodeStep_ProviderIDs nodes [] []
  generalize nodes.foldl nodeStep { Regions := [], ProviderIDs := [] } = r at h1 h2
  cases r
  simp only at h1 h2
  simp [h1, h2]

/-! ## ParseProviderIDs -/

theorem HasPrefix_iff (s pre : String) : HasPrefix s pre = true ↔ ∃ rest, s = pre ++ rest := by
  unfold HasPrefix
  rw [List.isPrefixOf_iff_prefix]
  constructor
  · rintro ⟨t, ht⟩
    exact ⟨⟨t⟩, String.ext (by rw [String.data_append]; exact ht.symm)⟩
  · rintro ⟨rest, hr⟩
    exact ⟨rest.data, by rw [hr, String.data_append]⟩

theorem switchCase_aws (rest : String) : switchCase ("aws://" ++ rest) = some "aws" := by
  simp [switchCase, HasPrefix, String.data_append, List.isPrefixOf]

theorem switchCase_azure (rest : String) : switchCase ("azure://" ++ rest) = some "azure" := by
  simp [switchCase, HasPrefix, String.data_append, List.isPrefixOf]

theorem switchCase_gce (rest : String) : switchCase ("gce://" ++ rest) = some "gcp" := by
  simp [switchCase, HasPrefix, String.data_append, List.isPrefixOf]

theorem switchCase_eq_some_iff (id p : String) : switchCase id = some p ↔ HasScheme id p := by
  constructor
  · intro h
    unfold switchCase at h
    split at h
    · rename_i hp
      obtain ⟨rest, hr⟩ := (HasPrefix_iff _ _).mp hp
      injection h with h
      exact ⟨"aws://", rest, by simp [recognisedSchemes, ← h], hr⟩
    · split at h
      · rename_i hp
        obtain ⟨rest, hr⟩ := (HasPrefix_iff _ _).mp hp
        injection h with h
        exact ⟨"azure://", rest, by simp [recognisedSchemes, ← h], hr⟩
      · split at h
        · rename_i hp
          obtain ⟨rest, hr⟩ := (HasPrefix_iff _ _).mp hp
          injection h with h
          exact ⟨"gce://", rest, by simp [recognisedSchemes, ← h], hr⟩
        · cases h
  · rintro ⟨scheme, rest, hm, hr⟩
    simp only [recognisedSchemes, List.mem_cons, Prod.mk.injEq, List.mem_singleton,
      List.not_mem_nil, or_false] at hm
    rcases hm with ⟨rfl, rfl⟩ | ⟨rfl, rfl⟩ | ⟨rfl, rfl⟩
    · rw [hr]; exact switchCase_aws rest
    · rw [hr]; exact switchCase_azure rest
    · rw [hr]; exact switchCase_gce rest

theorem switchCase_eq_none_iff (id : String) :
    switchCase id = none ↔
      (¬ ∃ rest, id = "aws://" ++ rest) ∧ (¬ ∃ rest, id = "azure://" ++ rest) ∧
      (¬ ∃ rest, id = "gce://" ++ rest) := by
  rw [← HasPrefix_iff, ← HasPrefix_iff, ← HasPrefix_iff]
  unfold switchCase
  by_cases h1 : HasPrefix id "aws://" = true <;> by_cases h2 : HasPrefix id "azure://" = true <;>
    by_cases h3 : HasPrefix id "gce://" = true <;> simp [h1, h2, h3]

theorem collectProviders_cons (acc : List String) (id : String) (rest : List String) :
    collectProviders acc (id :: rest) =
      match switchCase id with
      | some p => collectProviders (mapInsert acc p) rest
      | none => .error (.new ("provider ID format unknown: " ++ id)) := by
  unfold switchCase
  rw [collectProviders]
  by_cases h1 : HasPrefix id "aws://" = true
  · simp [h1]
  by_cases h2 : HasPrefix id "azure://" = true
  · simp [h1, h2]
  by_cases h3 : HasPrefix id "gce://" = true
  · simp [h1, h2, h3]
  simp [h1, h2, h3]

theorem collectProviders_error (pre post : List String) (bad : String)
    (hpre : ∀ id ∈ pre, switchCase id ≠ none) (hbad : switchCase bad = none) :
    ∀ acc, collectProviders acc (pre ++ bad :: post) =
      .error (.new ("provider ID format unknown: " ++ bad)) := by
  induction pre with
  | nil => intro acc; rw [List.nil_append, collectProviders_cons, hbad]
  | cons id rest ih =>
    intro acc
    rw [List.cons_append, collectProviders_cons]
    cases hc : switchCase id with
    | none => exact absurd hc (hpre id (List.mem_cons_self _ _))
    | some p => exact ih (fun x hx => hpre x (List.mem_cons_of_mem _ hx)) _

theorem collectProviders_ok (ids : List String) (hall : ∀ id ∈ ids, switchCase id ≠ none) :
    ∀ acc, collectProviders acc ids = .ok ((ids.filterMap switchCase).foldl mapInsert acc) := by
  induction ids with
  | nil => intro acc; simp [collectProviders]
  | cons id rest ih =>
    intro acc
    rw [collectProviders_cons]
    cases hc : switchCase id with
    | none => exact absurd hc (hall id (List.mem_cons_self _ _))
    | some p =>
      simp only
      rw [ih (fun x hx => hall x (List.mem_cons_of_mem _ hx)), List.filterMap_cons, hc]
      rfl

theorem collectProviders_ok_inv (ids : List String) :
    ∀ acc ps, collectProviders acc ids = .ok ps → ∀ id ∈ ids, switchCase id ≠ none := by
  induction ids with
  | nil => intro acc ps _ id hid; cases hid
  | cons id rest ih =>
    intro acc ps h x hx
    rw [collectProviders_cons] at h
    cases hc : switchCase id with
    | none => rw [hc] at h; cases h
    | some p =>
      rw [hc] at h
      rcases List.mem_cons.mp hx with rfl | hx
      · rw [hc]; exact Option.some_ne_none _
      · exact ih _ _ h x hx

theorem mem_foldl_mapInsert (names : List String) :
    ∀ (acc : List String) (x : String),
      x ∈ names.foldl mapInsert acc ↔ x ∈ acc ∨ x ∈ names := by
  induction names with
  | nil => intro acc x; simp
  | cons n rest ih =>
    intro acc x
    rw [List.foldl_cons, ih]
    unfold mapInsert
    by_cases hc : acc.contains n = true
    · have hn : n ∈ acc := by simpa using hc
      rw [if_pos hc]
      constructor
      · rintro (h | h)
        · exact Or.inl h
        · exact Or.inr (List.mem_cons_of_mem _ h)
      · rintro (h | h)
        · exact Or.inl h
        · rcases List.mem_cons.mp h with rfl | h
          · exact Or.inl hn
          · exact Or.inr h
    · rw [if_neg hc]
      simp only [List.mem_append, List.mem_singleton, List.mem_cons]
      tauto

theorem nodup_foldl_mapInsert (names : List String) :
    ∀ (acc : List String), acc.Nodup → (names.foldl mapInsert acc).Nodup := by
  induction names with
  | nil => intro acc h; exact h
  | cons n rest ih =>
    intro acc h
    rw [List.foldl_cons]
    apply ih
    unfold mapInsert
    by_cases hc : acc.contains n = true
    · rw [if_pos hc]; exact h
    · rw [if_neg hc]
      have hn : ¬ n ∈ acc := by simpa using hc
      rw [List.nodup_append]
      refine ⟨h, List.nodup_singleton _, ?_⟩
      intro a ha hb
      rw [List.mem_singleton] at hb
      exact hn (hb ▸ ha)

theorem mem_firstSeen (l : List String) : ∀ x, x ∈ firstSeen l ↔ x ∈ l := by
  induction l with
  | nil => intro x; simp [firstSeen]
  | cons a rest ih =>
    intro x
    simp only [firstSeen, List.mem_cons, List.mem_filter, ih]
    by_cases hx : x = a
    · simp [hx]
    · simp [hx]

theorem nodup_firstSeen (l : List String) : (firstSeen l).Nodup := by
  induction l with
  | nil => simp [firstSeen]
  | cons a rest ih =>
    simp only [firstSeen, List.nodup_cons, List.mem_filter]
    refine ⟨fun h => ?_, ih.filter _⟩
    simpa using h.2

theorem eq_singleton_of_nodup (l : List String) (p : String) (hn : l.Nodup)
    (hm : ∀ x, x ∈ l ↔ x = p) : l = [p] := by
  match l, hn, hm with
  | [], _, hm => exact absurd ((hm p).mpr rfl) (List.not_mem_nil _)
  | [a], _, hm => rw [(hm a).mp (List.mem_singleton_self a)]
  | a :: b :: rest, hn, hm =>
    have ha : a = p := (hm a).mp (List.mem_cons_self _ _)
    have hb : b = p := (hm b).mp (List.mem_cons_of_mem _ (List.mem_cons_self _ _))
    rw [List.nodup_cons] at hn
    exact absurd (by rw [ha, hb]; exact List.mem_cons_self _ _) hn.1

/-- The set of provider names that `ParseProviderIDs` collects in its map. -/
theorem collectProviders_nil_spec (ids ps : List String)
    (h : collectProviders [] ids = .ok ps) :
    ps.Nodup ∧ (∀ id ∈ ids, switchCase id ≠ none) ∧
      ∀ x, x ∈ ps ↔ ∃ id ∈ ids, switchCase id = some x := by
  have hall := collectProviders_ok_inv ids [] ps h
  rw [collectProviders_ok ids hall] at h
  injection h with h
  subst h
  refine ⟨nodup_foldl_mapInsert _ _ List.nodup_nil, hall, fun x => ?_⟩
  rw [mem_foldl_mapInsert, List.mem_filterMap]
  simp

theorem order_singleton (it : MapIter) (p : String) : it.order [p] = [p] :=
  List.perm_singleton.mp (it.perm [p])

theorem ParseProviderIDs_single (it : MapIter) (ids : List String) (p : String)
    (hne : ids ≠ []) (hall : ∀ id ∈ ids, switchCase id = some p) :
    ParseProviderIDs it ids = .ok p := by
  have hall2 : ∀ id ∈ ids, switchCase id ≠ none := fun id hid => by
    rw [hall id hid]; exact Option.some_ne_none _
  have hc := collectProviders_ok ids hall2 []
  obtain ⟨hn, _, hm⟩ := collectProviders_nil_spec ids _ hc
  have hps : (ids.filterMap switchCase).foldl mapInsert [] = [p] := by
    apply eq_singleton_of_nodup _ _ hn
    intro x
    rw [hm]
    constructor
    · rintro ⟨id, hid, hx⟩
      rw [hall id hid] at hx
      injection hx with hx
      exact hx.symm
    · rintro rfl
      obtain ⟨id, hid⟩ := List.exists_mem_of_ne_nil ids hne
      exact ⟨id, hid, hall id hid⟩
  unfold ParseProviderIDs
  rw [hc, hps]
  simp [order_singleton]

theorem ParseProviderIDs_ok_inv (it : MapIter) (ids : List String) (p : String)
    (h : ParseProviderIDs it ids = .ok p) :
    ids ≠ [] ∧ ∀ id ∈ ids, switchCase id = some p := by
  unfold ParseProviderIDs at h
  cases hc : collectProviders [] ids with
  | error e => rw [hc] at h; cases h
  | ok ps =>
    rw [hc] at h
    simp only at h
    obtain ⟨hn, hall, hm⟩ := collectProviders_nil_spec ids ps hc
    split at h
    · cases h
    · rename_i hlen
      have hres : it.order ps = [p] := by
        cases ho : it.order ps with
        | nil => rw [ho] at h; cases h
        | cons a rest =>
          rw [ho] at h hlen
          simp only [List.getElem?_cons_zero] at h
          injection h with h
          cases rest with
          | nil => rw [h]
          | cons b rest2 => simp at hlen
      have hps : ps = [p] := by
        have := it.perm ps
        rw [hres] at this
        exact List.perm_singleton.mp this.symm
      subst hps
      have hp : ∃ id ∈ ids, switchCase id = some p := (hm p).mp (List.mem_singleton_self p)
      refine ⟨?_, fun id hid => ?_⟩
      · rintro rfl
        obtain ⟨id, hid, _⟩ := hp
        cases hid
      · cases hs : switchCase id with
        | none => exact absurd hs (hall id hid)
        | some q =>
          have : q ∈ [p] := (hm q).mpr ⟨id, hid, hs⟩
          rw [List.mem_singleton.mp this]

theorem firstSeen_const (l : List String) (r : String) (hne : l ≠ [])
    (hall : ∀ x ∈ l, x = r) : firstSeen l = [r] := by
  apply eq_singleton_of_nodup _ _ (nodup_firstSeen l)
  intro x
  rw [mem_firstSeen]
  constructor
  · exact hall x
  · rintro rfl
    obtain ⟨y, hy⟩ := List.exists_mem_of_ne_nil l hne
    exact (hall y hy) ▸ hy

theorem mem_providerIDs (nodes : List Node) (id : String) :
    id ∈ providerIDs nodes ↔ ∃ node ∈ nodes, node.ProviderID = id ∧ id ≠ "" := by
  simp only [providerIDs, List.mem_filter, List.mem_map, decide_eq_true_eq]
  constructor
  · rintro ⟨⟨node, hn, rfl⟩, h⟩; exact ⟨node, hn, rfl, h⟩
  · rintro ⟨node, hn, rfl, h⟩; exact ⟨⟨node, hn, rfl⟩, h⟩

theorem mem_regionLabels (nodes : List Node) (l : String) :
    l ∈ regionLabels nodes ↔ ∃ node ∈ nodes, node.label RegionLabel = l ∧ l ≠ "" := by
  simp only [regionLabels, List.mem_filter, List.mem_map, decide_eq_true_eq]
  constructor
  · rintro ⟨⟨node, hn, rfl⟩, h⟩; exact ⟨node, hn, rfl, h⟩
  · rintro ⟨node, hn, rfl, h⟩; exact ⟨⟨node, hn, rfl⟩, h⟩

/-! ## DetectNodeCloudInfo -/

/-- The function `DetectNodeCloudInfo` on a non-empty node list, with the
aggregate in closed form. -/
theorem DetectNodeCloudInfo_eq (it : MapIter) (nodes : List Node) (hne : nodes ≠ []) :
    DetectNodeCloudInfo it ⟨.ok nodes⟩ =
      match ParseProviderIDs it (providerIDs nodes) with
      | .panic => .panic
      | .error err => .error err
      | .ok provider =>
        if (firstSeen (regionLabels nodes)).length ≠ 1 then
          .error (.new ("multiple regions found: " ++ fmtSlice (firstSeen (regionLabels nodes))))
        else
          match (firstSeen (regionLabels nodes))[0]? with
          | some region =>
            .ok { Provider := provider, Region := region, Source := "node-labels" }
          | none => .panic := by
  unfold DetectNodeCloudInfo
  rw [GetNodeAttributes_ok nodes hne]

/-- C3: when at least one node has a provider identifier, all provider
identifiers carry the scheme of one provider `p`, at least one node has a region
label and all region labels equal `r`, detection succeeds with provider `p`,
region `r` and source "node-labels". -/
theorem DetectNodeCloudInfo_single (it : MapIter) (nodes : List Node) (p r : String)
    (hid : ∃ node ∈ nodes, node.ProviderID ≠ "")
    (hp : ∀ node ∈ nodes, node.ProviderID ≠ "" → HasScheme node.ProviderID p)
    (hl : ∃ node ∈ nodes, node.label RegionLabel ≠ "")
    (hr : ∀ node ∈ nodes, node.label RegionLabel ≠ "" → node.label RegionLabel = r) :
    DetectNodeCloudInfo it ⟨.ok nodes⟩ =
      .ok { Provider := p, Region := r, Source := "node-labels" } := by
  have hne : nodes ≠ [] := by
    rintro rfl
    obtain ⟨node, hn, _⟩ := hid
    cases hn
  have h1 : ParseProviderIDs it (providerIDs nodes) = .ok p := by
    apply ParseProviderIDs_single
    · obtain ⟨node, hn, hx⟩ := hid
      exact List.ne_nil_of_mem ((mem_providerIDs nodes _).mpr ⟨node, hn, rfl, hx⟩)
    · intro id hid2
      obtain ⟨node, hn, rfl, hx⟩ := (mem_providerIDs nodes id).mp hid2
      exact (switchCase_eq_some_iff _ _).mpr (hp node hn hx)
  have h2 : firstSeen (regionLabels nodes) = [r] := by
    apply firstSeen_const
    · obtain ⟨node, hn, hx⟩ := hl
      exact List.ne_nil_of_mem ((mem_regionLabels nodes _).mpr ⟨node, hn, rfl, hx⟩)
    · intro l hl2
      obtain ⟨node, hn, rfl, hx⟩ := (mem_regionLabels nodes l).mp hl2
      exact hr node hn hx
  rw [DetectNodeCloudInfo_eq it nodes hne, h1, h2]
  rfl

/-- Witness for C3: the single AWS node of the repository's test. -/
theorem DetectNodeCloudInfo_single_witness :
    DetectNodeCloudInfo insertionOrder ⟨.ok [awsWestNode]⟩ =
      .ok { Provider := "aws", Region := "us-west-2", Source := "node-labels" } :=
  DetectNodeCloudInfo_single insertionOrder [awsWestNode] "aws" "us-west-2"
    ⟨awsWestNode, List.mem_singleton_self _, by decide⟩
    (fun node hn _ => by
      rw [List.mem_singleton.mp hn]
      exact ⟨"aws://", "/us-west-2a/i-1234567890abcdef0", by decide, by decide⟩)
    ⟨awsWestNode, List.mem_singleton_self _, by decide⟩
    (fun node hn _ => by
      rw [List.mem_singleton.mp hn]
      decide)

/-- C4: when detection succeeds with `c`, the client listed nodes of which at
least one has a provider identifier, every provider identifier carries the
scheme of `c.Provider`, at least one node has a region label, every region label
equals `c.Region`, and `c.Source` is "node-labels". -/
theorem DetectNodeCloudInfo_ok_inv (it : MapIter) (client : Client) (c : CloudInfo)
    (h : DetectNodeCloudInfo it client = .ok c) :
    ∃ nodes, client.listNodes = .ok nodes ∧
      (∃ node ∈ nodes, node.ProviderID ≠ "") ∧
      (∀ node ∈ nodes, node.ProviderID ≠ "" → HasScheme node.ProviderID c.Provider) ∧
      (∃ node ∈ nodes, node.label RegionLabel ≠ "") ∧
      (∀ node ∈ nodes, node.label RegionLabel ≠ "" → node.label RegionLabel = c.Region) ∧
      c.Source = "node-labels" := by
  obtain ⟨listNodes⟩ := client
  cases listNodes with
  | error e => simp [DetectNodeCloudInfo, GetNodeAttributes] at h
  | ok nodes =>
    refine ⟨nodes, rfl, ?_⟩
    by_cases hne : nodes = []
    · subst hne
      simp [DetectNodeCloudInfo, GetNodeAttributes] at h
    rw [DetectNodeCloudInfo_eq it nodes hne] at h
    cases hp : ParseProviderIDs it (providerIDs nodes) with
    | panic => rw [hp] at h; cases h
    | error e => rw [hp] at h; cases h
    | ok provider =>
      rw [hp] at h
      simp only at h
      obtain ⟨hids, hall⟩ := ParseProviderIDs_ok_inv it _ _ hp
      split at h
      · cases h
      · rename_i hlen
        cases hreg : firstSeen (regionLabels nodes) with
        | nil => rw [hreg] at hlen; simp at hlen
        | cons region rest =>
          rw [hreg] at h hlen
          have hrest : rest = [] := by
            cases rest with
            | nil => rfl
            | cons b t => simp at hlen
          subst hrest
          simp only [List.getElem?_cons_zero] at h
          injection h with h
          subst h
          refine ⟨?_, ?_, ?_, ?_, rfl⟩
          · obtain ⟨id, hid⟩ := List.exists_mem_of_ne_nil _ hids
            obtain ⟨node, hn, hx, hne2⟩ := (mem_providerIDs nodes id).mp hid
            exact ⟨node, hn, hx ▸ hne2⟩
          · intro node hn hx
            exact (switchCase_eq_some_iff _ _).mp
              (hall _ ((mem_providerIDs nodes _).mpr ⟨node, hn, rfl, hx⟩))
          · have : region ∈ firstSeen (regionLabels nodes) := by
              rw [hreg]; exact List.mem_singleton_self _
            obtain ⟨node, hn, hx, hne2⟩ :=
              (mem_regionLabels nodes region).mp ((mem_firstSeen _ _).mp this)
            exact ⟨node, hn, hx ▸ hne2⟩
          · intro node hn hx
            have : node.label RegionLabel ∈ firstSeen (regionLabels nodes) :=
              (mem_firstSeen _ _).mpr ((mem_regionLabels nodes _).mpr ⟨node, hn, rfl, hx⟩)
            rw [hreg] at this
            exact List.mem_singleton.mp this

/-- Witness for C4: the successful detection on the single AWS node. -/
theorem DetectNodeCloudInfo_ok_inv_witness :
    ∃ nodes, (Client.mk (.ok [awsWestNode])).listNodes = .ok nodes ∧
      (∃ node ∈ nodes, node.ProviderID ≠ "") ∧
      (∀ node ∈ nodes, node.ProviderID ≠ "" → HasScheme node.ProviderID "aws") ∧
      (∃ node ∈ nodes, node.label RegionLabel ≠ "") ∧
      (∀ node ∈ nodes, node.label RegionLabel ≠ "" → node.label RegionLabel = "us-west-2") ∧
      "node-labels" = "node-labels" :=
  DetectNodeCloudInfo_ok_inv insertionOrder ⟨.ok [awsWestNode]⟩
    { Provider := "aws", Region := "us-west-2", Source := "node-labels" } (by decide)

theorem order_nil (it : MapIter) : it.order [] = [] :=
  List.perm_nil.mp (it.perm [])

/-- C5 (the code at the failing input): on the empty identifier sequence the
read `result[0]` is out of range, so `ParseProviderIDs` panics; a non-empty node
list in which no node has a provider identifier makes `DetectNodeCloudInfo`
panic instead of returning a `CloudInfo` or an error. -/
theorem ParseProviderIDs_nil_panics (it : MapIter) :
    ParseProviderIDs it [] = .panic ∧
    GetNodeAttributes ⟨.ok [bareNode]⟩ =
      .ok { Regions := ["us-west-2"], ProviderIDs := [] } ∧
    DetectNodeCloudInfo it ⟨.ok [bareNode]⟩ = .panic := by
  have h1 : ParseProviderIDs it [] = .panic := by
    simp [ParseProviderIDs, collectProviders, order_nil]
  refine ⟨h1, by decide, ?_⟩
  rw [DetectNodeCloudInfo_eq it [bareNode] (by simp)]
  have : providerIDs [bareNode] = [] := by decide
  rw [this, h1]

/-- C6: `DetectCloudInfo` is a two-branch priority dispatch.  With
`UseNodeLabels` set the result is that of `DetectNodeCloudInfo` and no HTTP
request is issued, whatever `UseIMDS`, the library and the metadata transport
are; otherwise with `UseIMDS` set it is the result of `DetectIMDSCloudInfo`;
otherwise it fails with "no cloud info detection method specified".  With both
flags set and an empty node list it fails with "no nodes found". -/
theorem DetectCloudInfo_dispatch (lib : Lib) (it : MapIter) (defaultClient : IMDSClient)
    (client : Client) (useIMDS : Bool) :
    DetectCloudInfo lib it defaultClient client { UseNodeLabels := true, UseIMDS := useIMDS } =
      ([], DetectNodeCloudInfo it client) ∧
    DetectCloudInfo lib it defaultClient client { UseNodeLabels := false, UseIMDS := true } =
      ((DetectIMDSCloudInfo lib defaultClient).1,
        Outcome.ofExcept (DetectIMDSCloudInfo lib defaultClient).2) ∧
    DetectCloudInfo lib it defaultClient client { UseNodeLabels := false, UseIMDS := false } =
      ([], .error (.new "no cloud info detection method specified")) ∧
    DetectCloudInfo lib it defaultClient ⟨.ok []⟩ { UseNodeLabels := true, UseIMDS := true } =
      ([], .error (.new "no nodes found")) := by
  refine ⟨rfl, rfl, rfl, rfl⟩

/-- C7: every failure of `GetNodeAttributes` is returned unchanged by
`DetectNodeCloudInfo`; on the empty node list both fail with "no nodes found",
and an error of the node listing is passed through by both. -/
theorem DetectNodeCloudInfo_propagates (it : MapIter) (client : Client) (e : GoError) :
    (GetNodeAttributes client = .error e → DetectNodeCloudInfo it client = .error e) ∧
    (GetNodeAttributes ⟨.ok []⟩ = .error (.new "no nodes found") ∧
      DetectNodeCloudInfo it ⟨.ok []⟩ = .error (.new "no nodes found")) ∧
    (GetNodeAttributes ⟨.error e⟩ = .error e ∧ DetectNodeCloudInfo it ⟨.error e⟩ = .error e) := by
  refine ⟨fun h => ?_, ⟨rfl, rfl⟩, ⟨rfl, rfl⟩⟩
  unfold DetectNodeCloudInfo
  rw [h]

/-- Witness for C7: a listing error of the cluster client is returned as is. -/
theorem DetectNodeCloudInfo_propagates_witness :
    DetectNodeCloudInfo insertionOrder ⟨.error (.new "connection refused")⟩ =
      .error (.new "connection refused") :=
  (DetectNodeCloudInfo_propagates insertionOrder ⟨.error (.new "connection refused")⟩
    (.new "connection refused")).1 rfl

/-- C8: when the provider identifiers resolve to exactly one provider and the
number of distinct region labels is not one, detection fails with "multiple
regions found: [" followed by the distinct region labels in first-seen node
order, separated by single spaces, and "]". -/
theorem DetectNodeCloudInfo_regions_error (it : MapIter) (nodes : List Node) (p : String)
    (hid : ∃ node ∈ nodes, node.ProviderID ≠ "")
    (hp : ∀ node ∈ nodes, node.ProviderID ≠ "" → HasScheme node.ProviderID p)
    (hlen : (firstSeen (regionLabels nodes)).length ≠ 1) :
    DetectNodeCloudInfo it ⟨.ok nodes⟩ =
      .error (.new ("multiple regions found: [" ++
        " ".intercalate (firstSeen (regionLabels nodes)) ++ "]")) := by
  have hne : nodes ≠ [] := by
    rintro rfl
    obtain ⟨node, hn, _⟩ := hid
    cases hn
  have h1 : ParseProviderIDs it (providerIDs nodes) = .ok p := by
    apply ParseProviderIDs_single
    · obtain ⟨node, hn, hx⟩ := hid
      exact List.ne_nil_of_mem ((mem_providerIDs nodes _).mpr ⟨node, hn, rfl, hx⟩)
    · intro id hid2
      obtain ⟨node, hn, rfl, hx⟩ := (mem_providerIDs nodes id).mp hid2
      exact (switchCase_eq_some_iff _ _).mpr (hp node hn hx)
  rw [DetectNodeCloudInfo_eq it nodes hne, h1]
  simp only [if_pos hlen, fmtSlice, Join]
  congr 2

theorem hasScheme_aws (rest : String) : HasScheme ("aws://" ++ rest) "aws" :=
  ⟨"aws://", rest, by decide, rfl⟩

/-- Witness for C8: the two AWS nodes of the repository's test, with labels
us-west-2 then us-east-1, give "multiple regions found: [us-west-2 us-east-1]". -/
theorem DetectNodeCloudInfo_regions_error_witness :
    DetectNodeCloudInfo insertionOrder ⟨.ok [awsWestNode, awsEastNode]⟩ =
      .error (.new "multiple regions found: [us-west-2 us-east-1]") :=
  DetectNodeCloudInfo_regions_error insertionOrder [awsWestNode, awsEastNode] "aws"
    ⟨awsWestNode, List.mem_cons_self _ _, by decide⟩
    (fun node hn _ => by
      rcases List.mem_cons.mp hn with rfl | hn
      · exact hasScheme_aws "/us-west-2a/i-1234567890abcdef0"
      · rw [List.mem_singleton.mp hn]
        exact hasScheme_aws "/us-east-1a/i-0987654321fedcba0")
    (by decide)

theorem not_hasScheme_of_switchCase_none (id : String) (h : switchCase id = none) (p : String) :
    ¬ HasScheme id p := by
  intro hs
  rw [(switchCase_eq_some_iff id p).mpr hs] at h
  cases h

theorem hasScheme_ne_empty (id p : String) (h : HasScheme id p) : id ≠ "" := by
  rintro rfl
  exact not_hasScheme_of_switchCase_none "" (by decide) p h

theorem hasScheme_azure (rest : String) : HasScheme ("azure://" ++ rest) "azure" :=
  ⟨"azure://", rest, by decide, rfl⟩

theorem two_le_length_of_nodup (l : List String) (a b : String) (ha : a ∈ l) (hb : b ∈ l)
    (hab : a ≠ b) : 1 < l.length := by
  match l, ha, hb with
  | [x], ha, hb =>
    exact absurd ((List.mem_singleton.mp ha).trans (List.mem_singleton.mp hb).symm) hab
  | _ :: _ :: _, _, _ => simp

/-- C9: when every provider identifier has a recognised scheme and two of them
map to different providers, detection fails with "multiple cloud providers
found: " followed by the distinct provider names found, each exactly once and
no other, joined by ", " in some order; the region labels play no part. -/
theorem DetectNodeCloudInfo_providers_error (it : MapIter) (nodes : List Node)
    (hrec : ∀ node ∈ nodes, node.ProviderID ≠ "" → ∃ p, HasScheme node.ProviderID p)
    (htwo : ∃ n1 ∈ nodes, ∃ n2 ∈ nodes, ∃ p1 p2,
      HasScheme n1.ProviderID p1 ∧ HasScheme n2.ProviderID p2 ∧ p1 ≠ p2) :
    ∃ names : List String, names.Nodup ∧
      (∀ p, p ∈ names ↔ ∃ node ∈ nodes, HasScheme node.ProviderID p) ∧
      DetectNodeCloudInfo it ⟨.ok nodes⟩ =
        .error (.new ("multiple cloud providers found: " ++ ", ".intercalate names)) := by
  obtain ⟨n1, hn1, n2, hn2, p1, p2, hs1, hs2, hne12⟩ := htwo
  have hne : nodes ≠ [] := List.ne_nil_of_mem hn1
  have hall : ∀ id ∈ providerIDs nodes, switchCase id ≠ none := by
    intro id hid
    obtain ⟨node, hn, rfl, hx⟩ := (mem_providerIDs nodes id).mp hid
    obtain ⟨p, hp⟩ := hrec node hn hx
    rw [(switchCase_eq_some_iff _ _).mpr hp]
    exact Option.some_ne_none _
  have hc := collectProviders_ok (providerIDs nodes) hall []
  obtain ⟨hnd, _, hm⟩ := collectProviders_nil_spec _ _ hc
  generalize ((providerIDs nodes).filterMap switchCase).foldl mapInsert [] = ps at hc hnd hm
  have hmem : ∀ p, p ∈ ps ↔ ∃ node ∈ nodes, HasScheme node.ProviderID p := by
    intro p
    rw [hm]
    constructor
    · rintro ⟨id, hid, hx⟩
      obtain ⟨node, hn, rfl, _⟩ := (mem_providerIDs nodes id).mp hid
      exact ⟨node, hn, (switchCase_eq_some_iff _ _).mp hx⟩
    · rintro ⟨node, hn, hx⟩
      exact ⟨node.ProviderID,
        (mem_providerIDs nodes _).mpr ⟨node, hn, rfl, hasScheme_ne_empty _ _ hx⟩,
        (switchCase_eq_some_iff _ _).mpr hx⟩
  have hperm := it.perm ps
  have hlen : 1 < (it.order ps).length := by
    rw [hperm.length_eq]
    exact two_le_length_of_nodup ps p1 p2 ((hmem p1).mpr ⟨n1, hn1, hs1⟩)
      ((hmem p2).mpr ⟨n2, hn2, hs2⟩) hne12
  refine ⟨it.order ps, hperm.nodup_iff.mpr hnd, fun p => ?_, ?_⟩
  · rw [hperm.mem_iff, hmem]
  · rw [DetectNodeCloudInfo_eq it nodes hne]
    unfold ParseProviderIDs
    rw [hc]
    simp only [gt_iff_lt, if_pos hlen, Join]

/-- Witness for C9: the AWS node and the Azure node of the repository's test
(their region labels differ as well). -/
theorem DetectNodeCloudInfo_providers_error_witness :
    ∃ names : List String, names.Nodup ∧
      (∀ p, p ∈ names ↔ ∃ node ∈ [awsWestNode, azureNode], HasScheme node.ProviderID p) ∧
      DetectNodeCloudInfo reverseOrder ⟨.ok [awsWestNode, azureNode]⟩ =
        .error (.new ("multiple cloud providers found: " ++ ", ".intercalate names)) :=
  DetectNodeCloudInfo_providers_error reverseOrder [awsWestNode, azureNode]
    (fun node hn _ => by
      rcases List.mem_cons.mp hn with rfl | hn
      · exact ⟨"aws", hasScheme_aws "/us-west-2a/i-1234567890abcdef0"⟩
      · rw [List.mem_singleton.mp hn]
        exact ⟨"azure", hasScheme_azure _⟩)
    ⟨awsWestNode, List.mem_cons_self _ _, azureNode,
      List.mem_cons_of_mem _ (List.mem_singleton_self _), "aws", "azure",
      hasScheme_aws "/us-west-2a/i-1234567890abcdef0", hasScheme_azure _, by decide⟩

theorem providerIDs_append (xs ys : List Node) :
    providerIDs (xs ++ ys) = providerIDs xs ++ providerIDs ys := by
  simp [providerIDs]

/-- C10: when some provider identifier is non-empty and has none of the three
recognised schemes, detection fails with "provider ID format unknown: " followed
by the first such identifier in node order, whatever the other nodes show. -/
theorem DetectNodeCloudInfo_unknown_error (it : MapIter) (pre post : List Node) (node : Node)
    (hpre : ∀ n ∈ pre, n.ProviderID = "" ∨ ∃ p, HasScheme n.ProviderID p)
    (hne : node.ProviderID ≠ "")
    (hbad : ∀ p, ¬ HasScheme node.ProviderID p) :
    DetectNodeCloudInfo it ⟨.ok (pre ++ node :: post)⟩ =
      .error (.new ("provider ID format unknown: " ++ node.ProviderID)) := by
  have hnodes : pre ++ node :: post ≠ [] := by simp
  have hids : providerIDs (pre ++ node :: post) =
      providerIDs pre ++ node.ProviderID :: providerIDs post := by
    rw [providerIDs_append]
    congr 1
    simp [providerIDs, hne]
  have hbad2 : switchCase node.ProviderID = none := by
    cases hs : switchCase node.ProviderID with
    | none => rfl
    | some p => exact absurd ((switchCase_eq_some_iff _ _).mp hs) (hbad p)
  have hpre2 : ∀ id ∈ providerIDs pre, switchCase id ≠ none := by
    intro id hid
    obtain ⟨n, hn, rfl, hx⟩ := (mem_providerIDs pre id).mp hid
    rcases hpre n hn with h | ⟨p, hp⟩
    · exact absurd h hx
    · rw [(switchCase_eq_some_iff _ _).mpr hp]
      exact Option.some_ne_none _
  rw [DetectNodeCloudInfo_eq it _ hnodes, hids]
  unfold ParseProviderIDs
  rw [collectProviders_error _ _ _ hpre2 hbad2]

/-- Witness for C10: an unknown identifier after an AWS node and before an
Azure node and an AWS node of another region. -/
theorem DetectNodeCloudInfo_unknown_error_witness :
    DetectNodeCloudInfo insertionOrder
        ⟨.ok ([awsWestNode] ++ unknownNode :: [azureNode, awsEastNode])⟩ =
      .error (.new "provider ID format unknown: unknown://format") :=
  DetectNodeCloudInfo_unknown_error insertionOrder [awsWestNode] [azureNode, awsEastNode]
    unknownNode
    (fun n hn => by
      rw [List.mem_singleton.mp hn]
      exact Or.inr ⟨"aws", hasScheme_aws "/us-west-2a/i-1234567890abcdef0"⟩)
    (by decide)
    (not_hasScheme_of_switchCase_none _ (by decide))

/-! ## DetectIMDSCloudInfoWithClient -/

theorem NewRequestWithContext_ok (lib : Lib) (url : String) (h : lib.urlError url = none) :
    NewRequestWithContext lib "GET" url = .ok { Method := "GET", URL := url, Header := [] } := by
  simp [NewRequestWithContext, h]

theorem NewRequestWithContext_error (lib : Lib) (url : String) (e : GoError)
    (h : lib.urlError url = some e) : NewRequestWithContext lib "GET" url = .error e := by
  simp [NewRequestWithContext, h]

theorem okResponse_of_misses (client : IMDSClient) (req : Request) (h : Misses client req) :
    okResponse (client.Do req) = none := by
  unfold okResponse
  cases hd : client.Do req with
  | error e => rfl
  | ok resp => simp [h resp hd]

theorem okResponse_of_ok (client : IMDSClient) (req : Request) (body : Except GoError String)
    (h : client.Do req = .ok { StatusCode := 200, Body := body }) :
    okResponse (client.Do req) = some { StatusCode := 200, Body := body } := by
  rw [h]
  rfl

/-- The prober after the AWS attempt missed. -/
theorem imds_after_aws (lib : Lib) (client : IMDSClient) (config : IMDSConfig)
    (hu1 : lib.urlError config.AWSEndpoint = none) (hm1 : Misses client (awsRequest config)) :
    DetectIMDSCloudInfoWithClient lib client config =
      match NewRequestWithContext lib "GET" config.AzureEndpoint with
      | .error err =>
        ([awsRequest config],
          .error (.wrap ("failed to create Azure IMDS request: " ++ err.Error) err))
      | .ok req =>
        match okResponse (client.Do (req.setHeader "Metadata" "true")) with
        | some resp =>
          match lib.decodeLocation resp.Body with
          | .error err =>
            ([awsRequest config, req.setHeader "Metadata" "true"],
              .error (.wrap ("failed to decode Azure location: " ++ err.Error) err))
          | .ok location =>
            ([awsRequest config, req.setHeader "Metadata" "true"],
              .ok { Provider := "azure", Region := location, Source := "imds" })
        | none =>
          match NewRequestWithContext lib "GET" config.GCPEndpoint with
          | .error err =>
            ([awsRequest config, req.setHeader "Metadata" "true"],
              .error (.wrap ("failed to create GCP IMDS request: " ++ err.Error) err))
          | .ok req3 =>
            match okResponse (client.Do (req3.setHeader "Metadata-Flavor" "Google")) with
            | some resp =>
              ([awsRequest config, req.setHeader "Metadata" "true",
                req3.setHeader "Metadata-Flavor" "Google"], gcpRegion resp)
            | none =>
              ([awsRequest config, req.setHeader "Metadata" "true",
                req3.setHeader "Metadata-Flavor" "Google"], .error imdsExhausted) := by
  unfold DetectIMDSCloudInfoWithClient
  rw [NewRequestWithContext_ok lib _ hu1]
  simp only
  have := okResponse_of_misses client _ hm1
  unfold awsRequest at this
  rw [this]
  rfl

/-- The prober after the AWS and Azure attempts missed. -/
theorem imds_after_azure (lib : Lib) (client : IMDSClient) (config : IMDSConfig)
    (hu1 : lib.urlError config.AWSEndpoint = none) (hm1 : Misses client (awsRequest config))
    (hu2 : lib.urlError config.AzureEndpoint = none)
    (hm2 : Misses client (azureRequest config)) :
    DetectIMDSCloudInfoWithClient lib client config =
      match NewRequestWithContext lib "GET" config.GCPEndpoint with
      | .error err =>
        ([awsRequest config, azureRequest config],
          .error (.wrap ("failed to create GCP IMDS request: " ++ err.Error) err))
      | .ok req3 =>
        match okResponse (client.Do (req3.setHeader "Metadata-Flavor" "Google")) with
        | some resp =>
          ([awsRequest config, azureRequest config,
            req3.setHeader "Metadata-Flavor" "Google"], gcpRegion resp)
        | none =>
          ([awsRequest config, azureRequest config,
            req3.setHeader "Metadata-Flavor" "Google"], .error imdsExhausted) := by
  rw [imds_after_aws lib client config hu1 hm1, NewRequestWithContext_ok lib _ hu2]
  simp only
  have := okResponse_of_misses client _ hm2
  unfold azureRequest at this
  have e : ({ Method := "GET", URL := config.AzureEndpoint, Header := [] } : Request).setHeader
      "Metadata" "true" = azureRequest config := rfl
  rw [e]
  unfold azureRequest
  rw [this]

/-- C11: the prober tries AWS first.  When the AWS request gets status 200
with a readable body `b`, the result is provider "aws" with region `b` verbatim
and source "imds", and the AWS request is the only request issued: the Azure
and GCP endpoints are not asked, whatever they would answer. -/
theorem DetectIMDS_aws_first (lib : Lib) (client : IMDSClient) (config : IMDSConfig)
    (b : String)
    (hu1 : lib.urlError config.AWSEndpoint = none)
    (h1 : client.Do (awsRequest config) = .ok { StatusCode := 200, Body := .ok b }) :
    DetectIMDSCloudInfoWithClient lib client config =
      ([awsRequest config], .ok { Provider := "aws", Region := b, Source := "imds" }) := by
  unfold DetectIMDSCloudInfoWithClient
  rw [NewRequestWithContext_ok lib _ hu1]
  simp only
  have := okResponse_of_ok client _ _ h1
  unfold awsRequest at this
  rw [this]
  rfl

/-- Witness for C11: a server that answers 200 "us-west-2" at every URL, so the
Azure and GCP endpoints would answer 200 as well. -/
theorem DetectIMDS_aws_first_witness :
    DetectIMDSCloudInfoWithClient testLib (allOKClient "us-west-2") testConfig =
      ([awsRequest testConfig],
        .ok { Provider := "aws", Region := "us-west-2", Source := "imds" }) :=
  DetectIMDS_aws_first testLib (allOKClient "us-west-2") testConfig "us-west-2" rfl rfl

/-- C12: when the AWS attempt misses and the Azure request gets status 200 with
a body from which the JSON decoder reads the location `L`, the result is
provider "azure" with region `L` and source "imds"; the requests issued are the
AWS one and the Azure one, the latter with the header `Metadata: true`, and the
GCP endpoint is not asked. -/
theorem DetectIMDS_azure_second (lib : Lib) (client : IMDSClient) (config : IMDSConfig)
    (body L : String)
    (hu1 : lib.urlError config.AWSEndpoint = none) (hm1 : Misses client (awsRequest config))
    (hu2 : lib.urlError config.AzureEndpoint = none)
    (h2 : client.Do (azureRequest config) = .ok { StatusCode := 200, Body := .ok body })
    (hd : lib.decodeLocation (.ok body) = .ok L) :
    DetectIMDSCloudInfoWithClient lib client config =
        ([awsRequest config, azureRequest config],
          .ok { Provider := "azure", Region := L, Source := "imds" }) ∧
      (azureRequest config).URL = config.AzureEndpoint ∧
      (azureRequest config).Header = [("Metadata", "true")] := by
  refine ⟨?_, rfl, rfl⟩
  rw [imds_after_aws lib client config hu1 hm1, NewRequestWithContext_ok lib _ hu2]
  simp only
  have := okResponse_of_ok client _ _ h2
  unfold azureRequest at this
  have e : ({ Method := "GET", URL := config.AzureEndpoint, Header := [] } : Request).setHeader
      "Metadata" "true" = azureRequest config := rfl
  rw [e]
  unfold azureRequest
  rw [this]
  simp only [hd]

theorem misses_stub (url body : String) (req : Request) (h : req.URL ≠ url) :
    Misses (stubClient url body) req := by
  intro resp hr
  simp only [stubClient, if_neg h] at hr
  injection hr with hr
  rw [← hr]
  decide

/-- Witness for C12: the Azure server of the repository's test, which answers
the location document at the Azure URL and 404 elsewhere. -/
theorem DetectIMDS_azure_second_witness :
    DetectIMDSCloudInfoWithClient testLib
        (stubClient testConfig.AzureEndpoint "\x7b\"location\":\"eastus\"\x7d\n") testConfig =
        ([awsRequest testConfig, azureRequest testConfig],
          .ok { Provider := "azure", Region := "eastus", Source := "imds" }) ∧
      (azureRequest testConfig).URL = testConfig.AzureEndpoint ∧
      (azureRequest testConfig).Header = [("Metadata", "true")] :=
  DetectIMDS_azure_second testLib _ testConfig "\x7b\"location\":\"eastus\"\x7d\n" "eastus"
    rfl (misses_stub _ _ _ (by decide)) rfl rfl rfl

/-- C14: when the AWS, Azure and GCP attempts all miss, by a transport error or
by a status other than 200 in any mix, the prober has asked the three endpoints
in the order AWS, Azure, GCP and fails with exactly "failed to detect cloud
provider using IMDS"; none of the individual misses shows in the error. -/
theorem DetectIMDS_all_miss (lib : Lib) (client : IMDSClient) (config : IMDSConfig)
    (hu1 : lib.urlError config.AWSEndpoint = none) (hm1 : Misses client (awsRequest config))
    (hu2 : lib.urlError config.AzureEndpoint = none)
    (hm2 : Misses client (azureRequest config))
    (hu3 : lib.urlError config.GCPEndpoint = none) (hm3 : Misses client (gcpRequest config)) :
    DetectIMDSCloudInfoWithClient lib client config =
      ([awsRequest config, azureRequest config, gcpRequest config],
        .error (.new "failed to detect cloud provider using IMDS")) := by
  rw [imds_after_azure lib client config hu1 hm1 hu2 hm2, NewRequestWithContext_ok lib _ hu3]
  simp only
  have := okResponse_of_misses client _ hm3
  have e : ({ Method := "GET", URL := config.GCPEndpoint, Header := [] } : Request).setHeader
      "Metadata-Flavor" "Google" = gcpRequest config := rfl
  rw [e, this]
  rfl

/-- Witness for C14: the server of the repository's test that answers 404 at
every path (it serves no URL of the configuration). -/
theorem DetectIMDS_all_miss_witness :
    DetectIMDSCloudInfoWithClient testLib (stubClient "http://127.0.0.1:8080/" "") testConfig =
      ([awsRequest testConfig, azureRequest testConfig, gcpRequest testConfig],
        .error (.new "failed to detect cloud provider using IMDS")) :=
  DetectIMDS_all_miss testLib _ testConfig
    rfl (misses_stub _ _ _ (by decide)) rfl (misses_stub _ _ _ (by decide))
    rfl (misses_stub _ _ _ (by decide))

/-- C19: a request that cannot be built ends the probe at once.  A bad AWS
endpoint gives "failed to create AWS IMDS request: " with the cause wrapped and
no request is issued; after an AWS miss a bad Azure endpoint gives "failed to
create Azure IMDS request: " and only the AWS request was issued; after an AWS
and an Azure miss a bad GCP endpoint gives "failed to create GCP IMDS request: "
and the GCP endpoint is not asked.  Nothing is assumed about what the later
endpoints would answer. -/
theorem DetectIMDS_bad_endpoint (lib : Lib) (client : IMDSClient) (config : IMDSConfig)
    (e : GoError) :
    (lib.urlError config.AWSEndpoint = some e →
      DetectIMDSCloudInfoWithClient lib client config =
        ([], .error (.wrap ("failed to create AWS IMDS request: " ++ e.Error) e))) ∧
    (lib.urlError config.AWSEndpoint = none → Misses client (awsRequest config) →
      lib.urlError config.AzureEndpoint = some e →
      DetectIMDSCloudInfoWithClient lib client config =
        ([awsRequest config],
          .error (.wrap ("failed to create Azure IMDS request: " ++ e.Error) e))) ∧
    (lib.urlError config.AWSEndpoint = none → Misses client (awsRequest config) →
      lib.urlError config.AzureEndpoint = none → Misses client (azureRequest config) →
      lib.urlError config.GCPEndpoint = some e →
      DetectIMDSCloudInfoWithClient lib client config =
        ([awsRequest config, azureRequest config],
          .error (.wrap ("failed to create GCP IMDS request: " ++ e.Error) e))) := by
  refine ⟨fun h => ?_, fun hu1 hm1 h => ?_, fun hu1 hm1 hu2 hm2 h => ?_⟩
  · unfold DetectIMDSCloudInfoWithClient
    rw [NewRequestWithContext_error lib _ e h]
  · rw [imds_after_aws lib client config hu1 hm1, NewRequestWithContext_error lib _ e h]
  · rw [imds_after_azure lib client config hu1 hm1 hu2 hm2,
      NewRequestWithContext_error lib _ e h]

/-- Witness for C19: a bad AWS endpoint fails although every endpoint would
answer 200, and after an AWS miss a bad Azure endpoint fails although the GCP
endpoint would answer 200 with a well-formed zone. -/
theorem DetectIMDS_bad_endpoint_witness :
    DetectIMDSCloudInfoWithClient strictLib (allOKClient "us-west-2") badAWSConfig =
      ([], .error (.wrap
        "failed to create AWS IMDS request: parse \"http://[::1\": missing ']' in host"
        (.new "parse \"http://[::1\": missing ']' in host"))) ∧
    DetectIMDSCloudInfoWithClient strictLib
        (stubClient testConfig.GCPEndpoint "projects/123456789/zones/us-central1-a")
        badAzureConfig =
      ([awsRequest badAzureConfig], .error (.wrap
        "failed to create Azure IMDS request: parse \"http://[::1\": missing ']' in host"
        (.new "parse \"http://[::1\": missing ']' in host"))) :=
  ⟨(DetectIMDS_bad_endpoint strictLib (allOKClient "us-west-2") badAWSConfig
      (.new "parse \"http://[::1\": missing ']' in host")).1 (by decide),
    (DetectIMDS_bad_endpoint strictLib
      (stubClient testConfig.GCPEndpoint "projects/123456789/zones/us-central1-a")
      badAzureConfig (.new "parse \"http://[::1\": missing ']' in host")).2.1
      (by decide) (misses_stub _ _ _ (by decide)) (by decide)⟩

/-! ## Split and Join -/

theorem splitNChars_ne_nil (sep : List Char) (n : Nat) (s : List Char) :
    splitNChars sep (n + 1) s ≠ [] := by
  cases n with
  | zero => simp [splitNChars]
  | succ m =>
    rw [splitNChars]
    cases cutFirst sep s with
    | none => simp
    | some p => simp

/-- Joining the pieces of a split with the separator gives the text back. -/
theorem intercalate_splitNChars (sep : List Char) :
    ∀ (n : Nat) (s : List Char), List.intercalate sep (splitNChars sep (n + 1) s) = s := by
  intro n
  induction n with
  | zero => intro s; simp [splitNChars, List.intercalate]
  | succ m ih =>
    intro s
    rw [splitNChars]
    cases hc : cutFirst sep s with
    | none => simp [List.intercalate]
    | some p =>
      obtain ⟨a, b⟩ := p
      simp only
      have hs := cutFirst_sound sep s a b hc
      have hne := splitNChars_ne_nil sep m b
      have ih2 := ih b
      cases hr : splitNChars sep (m + 1) b with
      | nil => exact absurd hr hne
      | cons x xs =>
        rw [hr] at ih2
        rw [hs, ← ih2]
        simp [List.intercalate, List.intersperse]

/-- When the bound of a split exceeds the length of the text, no piece contains
the separator. -/
theorem splitNChars_pieces (sep : List Char) (hsep : sep ≠ []) :
    ∀ (n : Nat) (s : List Char), s.length < n →
      ∀ piece ∈ splitNChars sep n s, cutFirst sep piece = none := by
  intro n
  induction n with
  | zero => intro s h; exact absurd h (Nat.not_lt_zero _)
  | succ m ih =>
    intro s hlen piece hp
    cases m with
    | zero =>
      have hs : s = [] := List.length_eq_zero.mp (by omega)
      subst hs
      simp only [splitNChars, List.mem_singleton] at hp
      subst hp
      cases sep with
      | nil => exact absurd rfl hsep
      | cons c t => simp [cutFirst, List.isPrefixOf]
    | succ k =>
      rw [splitNChars] at hp
      cases hc : cutFirst sep s with
      | none =>
        rw [hc] at hp
        simp only [List.mem_singleton] at hp
        rw [hp]; exact hc
      | some p =>
        obtain ⟨a, b⟩ := p
        rw [hc] at hp
        simp only [List.mem_cons] at hp
        have hs := cutFirst_sound sep s a b hc
        rcases hp with rfl | hp
        · cases hn : cutFirst sep piece with
          | none => rfl
          | some q =>
            obtain ⟨a1, b1⟩ := q
            exfalso
            have h1 := cutFirst_sound sep piece a1 b1 hn
            have h2 := cutFirst_first sep s piece b hc a1 (b1 ++ sep ++ b)
              (by rw [hs, h1]; simp [List.append_assoc])
            have h3 : sep.length ≠ 0 := fun h => hsep (List.length_eq_zero.mp h)
            have h4 := congrArg List.length h1
            simp only [List.length_append] at h4
            omega
        · apply ih b _ piece hp
          have h3 : sep.length ≠ 0 := fun h => hsep (List.length_eq_zero.mp h)
          have h4 := congrArg List.length hs
          simp only [List.length_append] at h4
          omega

theorem intercalate_go_data (sep : String) :
    ∀ (l : List String) (acc : String),
      (String.intercalate.go acc sep l).data =
        acc.data ++ (l.map (fun a => sep.data ++ a.data)).flatten := by
  intro l
  induction l with
  | nil => intro acc; simp [String.intercalate.go]
  | cons a rest ih =>
    intro acc
    rw [String.intercalate.go, ih]
    simp [String.data_append, List.append_assoc]

theorem list_intercalate_cons (sep a : List Char) (rest : List (List Char)) :
    List.intercalate sep (a :: rest) = a ++ (rest.map (fun x => sep ++ x)).flatten := by
  induction rest generalizing a with
  | nil => simp [List.intercalate]
  | cons b bs ih =>
    have := ih b
    simp only [List.intercalate, List.intersperse] at this ⊢
    simp [this]

theorem Join_data (sep : String) (l : List String) :
    (Join l sep).data = List.intercalate sep.data (l.map String.data) := by
  cases l with
  | nil => simp [Join, String.intercalate, List.intercalate]
  | cons a rest =>
    simp only [Join, String.intercalate, intercalate_go_data, List.map_cons,
      list_intercalate_cons, List.map_map]
    rfl

/-- Joining the pieces of `Split` with the separator gives the text back. -/
theorem Join_Split (s sep : String) : Join (Split s sep) sep = s := by
  apply String.ext
  rw [Join_data, Split, SplitN, List.map_map]
  have : (String.data ∘ String.mk) = id := by funext x; rfl
  rw [this, List.map_id, intercalate_splitNChars]

theorem Join_append_singleton (sep x : String) (l : List String) (hl : l ≠ []) :
    Join (l ++ [x]) sep = Join l sep ++ sep ++ x := by
  cases l with
  | nil => exact absurd rfl hl
  | cons a rest =>
    apply String.ext
    simp only [String.data_append, Join_data, List.cons_append, List.map_cons,
      list_intercalate_cons, List.map_append, List.flatten_append]
    simp

/-- No piece returned by `Split` contains the separator. -/
theorem Split_piece (s sep piece : String) (hsep : sep ≠ "") (hp : piece ∈ Split s sep) :
    ¬ ∃ a b : String, piece = a ++ sep ++ b := by
  simp only [Split, SplitN, List.mem_map] at hp
  obtain ⟨p, hp, rfl⟩ := hp
  apply not_contains_of_cutFirst_none
  apply splitNChars_pieces sep.data (fun h => hsep (String.ext h)) _ s.data _ p hp
  exact Nat.lt_succ_self _

/-- A split into at least two pieces: the text is the joined front pieces, the
separator and the last piece, and the last piece has no separator. -/
theorem Split_last (s sep : String) (hsep : sep ≠ "") (h2 : 2 ≤ (Split s sep).length) :
    ∃ last : String, (Split s sep).getLast? = some last ∧
      s = Join (Split s sep).dropLast sep ++ sep ++ last ∧
      ¬ ∃ a b : String, last = a ++ sep ++ b := by
  have hne : Split s sep ≠ [] := by
    intro h; rw [h] at h2; simp at h2
  refine ⟨(Split s sep).getLast hne, List.getLast?_eq_getLast _ hne, ?_,
    Split_piece s sep _ hsep (List.getLast_mem hne)⟩
  have hd : (Split s sep).dropLast ≠ [] := by
    intro h
    have := congrArg List.length h
    simp only [List.length_dropLast, List.length_nil] at this
    omega
  rw [← Join_append_singleton sep _ _ hd, List.dropLast_append_getLast, Join_Split]

/-! ## The GCP branch -/

/-- The prober when the AWS and Azure attempts missed and the GCP request got
status 200. -/
theorem imds_gcp_answer (lib : Lib) (client : IMDSClient) (config : IMDSConfig)
    (body : Except GoError String)
    (hu1 : lib.urlError config.AWSEndpoint = none) (hm1 : Misses client (awsRequest config))
    (hu2 : lib.urlError config.AzureEndpoint = none)
    (hm2 : Misses client (azureRequest config))
    (hu3 : lib.urlError config.GCPEndpoint = none)
    (h3 : client.Do (gcpRequest config) = .ok { StatusCode := 200, Body := body }) :
    DetectIMDSCloudInfoWithClient lib client config =
      ([awsRequest config, azureRequest config, gcpRequest config],
        gcpRegion { StatusCode := 200, Body := body }) := by
  rw [imds_after_azure lib client config hu1 hm1 hu2 hm2, NewRequestWithContext_ok lib _ hu3]
  simp only
  have := okResponse_of_ok client _ _ h3
  have e : ({ Method := "GET", URL := config.GCPEndpoint, Header := [] } : Request).setHeader
      "Metadata-Flavor" "Google" = gcpRequest config := rfl
  rw [e, this]

theorem gcpRegion_ok (zone z : String) (hseg : 4 ≤ (Split zone "/").length)
    (hz : (Split zone "/").getLast? = some z) (hcomp : 2 ≤ (Split z "-").length) :
    gcpRegion { StatusCode := 200, Body := .ok zone } =
      .ok { Provider := "gcp", Region := Join (Split z "-").dropLast "-", Source := "imds" } := by
  have hl : (Split zone "/").getLastD "" = z := by
    rw [List.getLastD_eq_getLast?, hz]; rfl
  simp only [gcpRegion, hl]
  rw [if_neg (by omega), if_neg (by omega)]

theorem gcpRegion_malformed (zone : String)
    (hbad : (Split zone "/").length < 4 ∨
      (Split ((Split zone "/").getLastD "") "-").length < 2) :
    gcpRegion { StatusCode := 200, Body := .ok zone } =
      .error (.new ("invalid GCP zone format: " ++
        (if (Split zone "/").length < 4 then zone else (Split zone "/").getLastD ""))) := by
  simp only [gcpRegion]
  by_cases h4 : (Split zone "/").length < 4
  · rw [if_pos h4, if_pos h4]
  · rw [if_neg h4, if_neg h4]
    rcases hbad with h | h
    · exact absurd h h4
    · rw [if_pos h]

theorem invalid_zone_ne_exhausted (detail : String) :
    GoError.new ("invalid GCP zone format: " ++ detail) ≠
      GoError.new "failed to detect cloud provider using IMDS" := by
  intro h
  injection h with h
  have := congrArg String.data h
  rw [String.data_append] at this
  have h2 := congrArg List.head? this
  simp at h2

/-- C13: when the AWS and Azure attempts miss and the GCP request gets status
200 with a body of at least four "/"-delimited segments whose final segment `z`
has at least two "-"-delimited components, the result is provider "gcp", source
"imds" and the region `r` with `z = r ++ "-" ++ suffix`, where `suffix` contains
no "-" (and `z` is the text after the last "/" of the body). -/
theorem DetectIMDS_gcp_third (lib : Lib) (client : IMDSClient) (config : IMDSConfig)
    (zone z : String)
    (hu1 : lib.urlError config.AWSEndpoint = none) (hm1 : Misses client (awsRequest config))
    (hu2 : lib.urlError config.AzureEndpoint = none)
    (hm2 : Misses client (azureRequest config))
    (hu3 : lib.urlError config.GCPEndpoint = none)
    (h3 : client.Do (gcpRequest config) = .ok { StatusCode := 200, Body := .ok zone })
    (hseg : 4 ≤ (Split zone "/").length)
    (hz : (Split zone "/").getLast? = some z)
    (hcomp : 2 ≤ (Split z "-").length) :
    ∃ r suffix : String,
      z = r ++ "-" ++ suffix ∧ (¬ ∃ a b : String, suffix = a ++ "-" ++ b) ∧
      (∃ front : String, zone = front ++ "/" ++ z) ∧ (¬ ∃ a b : String, z = a ++ "/" ++ b) ∧
      DetectIMDSCloudInfoWithClient lib client config =
        ([awsRequest config, azureRequest config, gcpRequest config],
          .ok { Provider := "gcp", Region := r, Source := "imds" }) := by
  obtain ⟨suffix, _, hjoin, hsuf⟩ := Split_last z "-" (by decide) hcomp
  obtain ⟨z1, hz1, hfront, hnz⟩ := Split_last zone "/" (by decide) (by omega)
  rw [hz] at hz1
  injection hz1 with hz1
  subst hz1
  exact ⟨Join (Split z "-").dropLast "-", suffix, hjoin, hsuf, ⟨_, hfront⟩, hnz, by
    rw [imds_gcp_answer lib client config _ hu1 hm1 hu2 hm2 hu3 h3,
      gcpRegion_ok zone z hseg hz hcomp]⟩

/-- Witness for C13: the GCP server of the repository's test; the zone path
"projects/123456789/zones/us-central1-a" gives the region "us-central1". -/
theorem DetectIMDS_gcp_third_witness :
    ∃ r suffix : String,
      "us-central1-a" = r ++ "-" ++ suffix ∧ (¬ ∃ a b : String, suffix = a ++ "-" ++ b) ∧
      (∃ front : String, "projects/123456789/zones/us-central1-a" = front ++ "/" ++ "us-central1-a") ∧
      (¬ ∃ a b : String, "us-central1-a" = a ++ "/" ++ b) ∧
      DetectIMDSCloudInfoWithClient testLib
          (stubClient testConfig.GCPEndpoint "projects/123456789/zones/us-central1-a")
          testConfig =
        ([awsRequest testConfig, azureRequest testConfig, gcpRequest testConfig],
          .ok { Provider := "gcp", Region := r, Source := "imds" }) :=
  DetectIMDS_gcp_third testLib _ testConfig "projects/123456789/zones/us-central1-a"
    "us-central1-a" rfl (misses_stub _ _ _ (by decide)) rfl (misses_stub _ _ _ (by decide))
    rfl rfl (by decide) (by decide) (by decide)

/-- C15: when the AWS and Azure attempts miss and the GCP request gets status
200 with a body of fewer than four "/"-delimited segments, or whose final
segment has fewer than two "-"-delimited components, the prober fails with
"invalid GCP zone format: " followed by the body (first case) or by the final
segment (second case); this error differs from the generic "failed to detect
cloud provider using IMDS" error. -/
theorem DetectIMDS_gcp_malformed (lib : Lib) (client : IMDSClient) (config : IMDSConfig)
    (zone : String)
    (hu1 : lib.urlError config.AWSEndpoint = none) (hm1 : Misses client (awsRequest config))
    (hu2 : lib.urlError config.AzureEndpoint = none)
    (hm2 : Misses client (azureRequest config))
    (hu3 : lib.urlError config.GCPEndpoint = none)
    (h3 : client.Do (gcpRequest config) = .ok { StatusCode := 200, Body := .ok zone })
    (hbad : (Split zone "/").length < 4 ∨
      (Split ((Split zone "/").getLastD "") "-").length < 2) :
    ∃ detail : String,
      detail = (if (Split zone "/").length < 4 then zone else (Split zone "/").getLastD "") ∧
      DetectIMDSCloudInfoWithClient lib client config =
        ([awsRequest config, azureRequest config, gcpRequest config],
          .error (.new ("invalid GCP zone format: " ++ detail))) ∧
      GoError.new ("invalid GCP zone format: " ++ detail) ≠
        GoError.new "failed to detect cloud provider using IMDS" := by
  refine ⟨_, rfl, ?_, invalid_zone_ne_exhausted _⟩
  rw [imds_gcp_answer lib client config _ hu1 hm1 hu2 hm2 hu3 h3, gcpRegion_malformed zone hbad]

/-- Witness for C15: a zone path of four segments whose final segment "zone"
has a single component. -/
theorem DetectIMDS_gcp_malformed_witness :
    DetectIMDSCloudInfoWithClient testLib
        (stubClient testConfig.GCPEndpoint "projects/123456789/zones/zone") testConfig =
      ([awsRequest testConfig, azureRequest testConfig, gcpRequest testConfig],
        .error (.new "invalid GCP zone format: zone")) := by
  obtain ⟨detail, hd, h, _⟩ := DetectIMDS_gcp_malformed testLib
    (stubClient testConfig.GCPEndpoint "projects/123456789/zones/zone") testConfig
    "projects/123456789/zones/zone" rfl (misses_stub _ _ _ (by decide)) rfl
    (misses_stub _ _ _ (by decide)) rfl rfl (Or.inr (by decide))
  have hd2 : detail = "zone" := by rw [hd]; decide
  rw [h, hd2]
  rfl

/-! ## Shape of successful results -/

theorem switchCase_range (id p : String) (h : switchCase id = some p) : p ∈ providerNames := by
  unfold switchCase at h
  split at h
  · injection h with h; rw [← h]; decide
  · split at h
    · injection h with h; rw [← h]; decide
    · split at h
      · injection h with h; rw [← h]; decide
      · cases h

/-- What a successful node-label detection says about the node list. -/
theorem DetectNodeCloudInfo_ok_parts (it : MapIter) (client : Client) (c : CloudInfo)
    (h : DetectNodeCloudInfo it client = .ok c) :
    ∃ nodes, client.listNodes = .ok nodes ∧ nodes ≠ [] ∧
      ParseProviderIDs it (providerIDs nodes) = .ok c.Provider ∧
      firstSeen (regionLabels nodes) = [c.Region] ∧ c.Source = "node-labels" := by
  obtain ⟨listNodes⟩ := client
  cases listNodes with
  | error e => simp [DetectNodeCloudInfo, GetNodeAttributes] at h
  | ok nodes =>
    by_cases hne : nodes = []
    · subst hne
      simp [DetectNodeCloudInfo, GetNodeAttributes] at h
    refine ⟨nodes, rfl, hne, ?_⟩
    rw [DetectNodeCloudInfo_eq it nodes hne] at h
    cases hp : ParseProviderIDs it (providerIDs nodes) with
    | panic => rw [hp] at h; cases h
    | error e => rw [hp] at h; cases h
    | ok provider =>
      rw [hp] at h
      simp only at h
      split at h
      · cases h
      · rename_i hlen
        cases hreg : firstSeen (regionLabels nodes) with
        | nil => rw [hreg] at hlen; simp at hlen
        | cons region rest =>
          rw [hreg] at h hlen
          have hrest : rest = [] := by
            cases rest with
            | nil => rfl
            | cons b t => simp at hlen
          subst hrest
          simp only [List.getElem?_cons_zero] at h
          injection h with h
          subst h
          exact ⟨rfl, rfl, rfl⟩

theorem gcpRegion_ok_shape (resp : Response) (c : CloudInfo) (h : gcpRegion resp = .ok c) :
    c.Provider = "gcp" ∧ c.Source = "imds" := by
  unfold gcpRegion at h
  split at h
  · cases h
  · simp only at h
    split at h
    · cases h
    · split at h
      · cases h
      · injection h with h
        subst h
        exact ⟨rfl, rfl⟩

theorem DetectIMDS_ok_shape (lib : Lib) (client : IMDSClient) (config : IMDSConfig)
    (c : CloudInfo) (h : (DetectIMDSCloudInfoWithClient lib client config).2 = .ok c) :
    c.Provider ∈ providerNames ∧ c.Source = "imds" := by
  unfold DetectIMDSCloudInfoWithClient at h
  split at h
  · cases h
  · split at h
    · split at h
      · cases h
      · simp only at h
        injection h with h
        subst h
        exact ⟨(by decide : "aws" ∈ providerNames), rfl⟩
    · split at h
      · cases h
      · simp only at h
        split at h
        · split at h
          · cases h
          · simp only at h
            injection h with h
            subst h
            exact ⟨(by decide : "azure" ∈ providerNames), rfl⟩
        · split at h
          · cases h
          · split at h
            · obtain ⟨h1, h2⟩ := gcpRegion_ok_shape _ _ h
              exact ⟨by rw [h1]; decide, h2⟩
            · cases h

/-- C16 (counterexample): an AWS endpoint that answers 200 with an empty body
makes the IMDS path succeed with an empty region. -/
theorem DetectIMDS_empty_region :
    ∃ c : CloudInfo,
      (DetectIMDSCloudInfoWithClient testLib (allOKClient "") testConfig).2 = .ok c ∧
      c.Region = "" :=
  ⟨{ Provider := "aws", Region := "", Source := "imds" }, rfl, rfl⟩

/-- C16 (amended): a successful node-label detection has a provider among
"aws", "azure", "gcp", a non-empty region and source "node-labels"; a successful
IMDS detection has a provider among "aws", "azure", "gcp" and source "imds"
(its region is the text the endpoint delivered, which may be empty). -/
theorem success_is_populated (it : MapIter) (client : Client) (lib : Lib)
    (imds : IMDSClient) (config : IMDSConfig) (c : CloudInfo) :
    (DetectNodeCloudInfo it client = .ok c →
      c.Provider ∈ providerNames ∧ c.Region ≠ "" ∧ c.Source = "node-labels") ∧
    ((DetectIMDSCloudInfoWithClient lib imds config).2 = .ok c →
      c.Provider ∈ providerNames ∧ c.Source = "imds") := by
  refine ⟨fun h => ?_, DetectIMDS_ok_shape lib imds config c⟩
  obtain ⟨nodes, _, _, hp, hr, hs⟩ := DetectNodeCloudInfo_ok_parts it client c h
  obtain ⟨hids, hall⟩ := ParseProviderIDs_ok_inv it _ _ hp
  obtain ⟨id, hid⟩ := List.exists_mem_of_ne_nil _ hids
  refine ⟨switchCase_range id _ (hall id hid), ?_, hs⟩
  have hm : c.Region ∈ firstSeen (regionLabels nodes) := by
    rw [hr]; exact List.mem_singleton_self _
  obtain ⟨_, _, _, hne⟩ := (mem_regionLabels nodes _).mp ((mem_firstSeen _ _).mp hm)
  exact hne

/-- Witness for C16 (amended): the successful detections of the repository's
tests, one on each path. -/
theorem success_is_populated_witness :
    ("aws" ∈ providerNames ∧ "us-west-2" ≠ "" ∧ "node-labels" = "node-labels") ∧
    ("aws" ∈ providerNames ∧ "imds" = "imds") :=
  ⟨(success_is_populated insertionOrder ⟨.ok [awsWestNode]⟩ testLib
      (allOKClient "us-west-2") testConfig
      { Provider := "aws", Region := "us-west-2", Source := "node-labels" }).1 (by decide),
    (success_is_populated insertionOrder ⟨.ok [awsWestNode]⟩ testLib
      (allOKClient "us-west-2") testConfig
      { Provider := "aws", Region := "us-west-2", Source := "imds" }).2 rfl⟩

/-! ## The aggregate against its reference definition -/

/-- C17: on a non-empty node list `GetNodeAttributes` returns the reference
aggregate: `Regions` is the list of non-empty region labels with every repeat
after the first occurrence removed (so it has no empty string and no
duplicate), and `ProviderIDs` is the list of non-empty provider identifiers in
node order with duplicates retained. -/
theorem GetNodeAttributes_refines (nodes : List Node) (hne : nodes ≠ []) :
    GetNodeAttributes ⟨.ok nodes⟩ = .ok (specNodeAttributes nodes) ∧
    (specNodeAttributes nodes).Regions = firstSeen (regionLabels nodes) ∧
    (specNodeAttributes nodes).ProviderIDs =
      (nodes.map (fun node => node.ProviderID)).filter (fun id => id ≠ "") ∧
    ¬ "" ∈ (specNodeAttributes nodes).Regions ∧
    (specNodeAttributes nodes).Regions.Nodup := by
  refine ⟨GetNodeAttributes_ok nodes hne, rfl, rfl, ?_, nodup_firstSeen _⟩
  intro h
  obtain ⟨_, _, _, hx⟩ := (mem_regionLabels nodes _).mp ((mem_firstSeen _ _).mp h)
  exact hx rfl

/-- Witness for C17: three nodes, the third repeating the region and the
provider identifier of the first, and a node without provider identifier. -/
theorem GetNodeAttributes_refines_witness :
    GetNodeAttributes ⟨.ok [awsWestNode, awsEastNode, bareNode, awsWestNode]⟩ =
      .ok { Regions := ["us-west-2", "us-east-1"]
            ProviderIDs := ["aws:///us-west-2a/i-1234567890abcdef0",
              "aws:///us-east-1a/i-0987654321fedcba0",
              "aws:///us-west-2a/i-1234567890abcdef0"] } :=
  (GetNodeAttributes_refines [awsWestNode, awsEastNode, bareNode, awsWestNode]
    (by simp)).1.trans (by decide)

/-! ## Reordering the node list -/

theorem perm_providerIDs (nodes nodes' : List Node) (h : nodes.Perm nodes') :
    (providerIDs nodes).Perm (providerIDs nodes') :=
  (h.map _).filter _

theorem perm_regionLabels (nodes nodes' : List Node) (h : nodes.Perm nodes') :
    (regionLabels nodes).Perm (regionLabels nodes') :=
  (h.map _).filter _

theorem perm_firstSeen (l l' : List String) (h : l.Perm l') :
    (firstSeen l).Perm (firstSeen l') := by
  rw [List.perm_ext_iff_of_nodup (nodup_firstSeen l) (nodup_firstSeen l')]
  intro a
  rw [mem_firstSeen, mem_firstSeen, h.mem_iff]

/-- C18 (counterexample): swapping two nodes changes the `ProviderIDs` component
of the aggregate. -/
theorem GetNodeAttributes_order_matters :
    List.Perm [awsWestNode, awsEastNode] [awsEastNode, awsWestNode] ∧
    ∃ a a' : NodeAttributes,
      GetNodeAttributes ⟨.ok [awsWestNode, awsEastNode]⟩ = .ok a ∧
      GetNodeAttributes ⟨.ok [awsEastNode, awsWestNode]⟩ = .ok a' ∧
      a.ProviderIDs ≠ a'.ProviderIDs :=
  ⟨List.Perm.swap _ _ _,
    { Regions := ["us-west-2", "us-east-1"]
      ProviderIDs := ["aws:///us-west-2a/i-1234567890abcdef0",
        "aws:///us-east-1a/i-0987654321fedcba0"] },
    { Regions := ["us-east-1", "us-west-2"]
      ProviderIDs := ["aws:///us-east-1a/i-0987654321fedcba0",
        "aws:///us-west-2a/i-1234567890abcdef0"] },
    by decide, by decide, by decide⟩

/-- C18 (amended): for a node list and a permutation of it, `GetNodeAttributes`
fails on both with "no nodes found" or succeeds on both; the two `Regions` lists
contain the same region strings (each once, in possibly different order) and the
two `ProviderIDs` lists contain the same identifiers with the same
multiplicities, in possibly different order. -/
theorem GetNodeAttributes_perm (nodes nodes' : List Node) (h : nodes.Perm nodes') :
    (GetNodeAttributes ⟨.ok nodes⟩ = .error (.new "no nodes found") ∧
      GetNodeAttributes ⟨.ok nodes'⟩ = .error (.new "no nodes found")) ∨
    ∃ a a' : NodeAttributes,
      GetNodeAttributes ⟨.ok nodes⟩ = .ok a ∧ GetNodeAttributes ⟨.ok nodes'⟩ = .ok a' ∧
      (∀ r, r ∈ a.Regions ↔ r ∈ a'.Regions) ∧ a.Regions.Perm a'.Regions ∧
      a.ProviderIDs.Perm a'.ProviderIDs := by
  by_cases hne : nodes = []
  · subst hne
    have hn := List.Perm.nil_eq h
    subst hn
    exact Or.inl ⟨rfl, rfl⟩
  · have hne' : nodes' ≠ [] := fun e => hne (by rw [e] at h; exact List.Perm.eq_nil h)
    have hr := perm_firstSeen _ _ (perm_regionLabels nodes nodes' h)
    exact Or.inr ⟨_, _, GetNodeAttributes_ok nodes hne, GetNodeAttributes_ok nodes' hne',
      fun r => hr.mem_iff, hr, perm_providerIDs nodes nodes' h⟩

/-- Witness for C18 (amended): the two AWS nodes in either order. -/
theorem GetNodeAttributes_perm_witness :
    (GetNodeAttributes ⟨.ok [awsWestNode, awsEastNode]⟩ = .error (.new "no nodes found") ∧
      GetNodeAttributes ⟨.ok [awsEastNode, awsWestNode]⟩ = .error (.new "no nodes found")) ∨
    ∃ a a' : NodeAttributes,
      GetNodeAttributes ⟨.ok [awsWestNode, awsEastNode]⟩ = .ok a ∧
      GetNodeAttributes ⟨.ok [awsEastNode, awsWestNode]⟩ = .ok a' ∧
      (∀ r, r ∈ a.Regions ↔ r ∈ a'.Regions) ∧ a.Regions.Perm a'.Regions ∧
      a.ProviderIDs.Perm a'.ProviderIDs :=
  GetNodeAttributes_perm [awsWestNode, awsEastNode] [awsEastNode, awsWestNode]
    (List.Perm.swap _ _ _)

theorem collectProviders_unknown (ids : List String) :
    ∀ acc, (∃ id ∈ ids, switchCase id = none) →
      ∃ bad, collectProviders acc ids = .error (.new ("provider ID format unknown: " ++ bad)) := by
  induction ids with
  | nil => rintro acc ⟨id, hid, _⟩; cases hid
  | cons id rest ih =>
    rintro acc ⟨x, hx, hs⟩
    rw [collectProviders_cons]
    cases hc : switchCase id with
    | none => exact ⟨id, rfl⟩
    | some p =>
      rcases List.mem_cons.mp hx with rfl | hx
      · rw [hs] at hc; cases hc
      · exact ih _ ⟨x, hx, hs⟩

/-- The outcomes of `ParseProviderIDs` on two orderings of the same
identifiers, each with its own map iteration order. -/
theorem ParseProviderIDs_perm (it it' : MapIter) (ids ids' : List String)
    (h : ids.Perm ids') :
    (∃ p, ParseProviderIDs it ids = .ok p ∧ ParseProviderIDs it' ids' = .ok p) ∨
    (ParseProviderIDs it ids = .panic ∧ ParseProviderIDs it' ids' = .panic) ∨
    (∃ bad bad' : String,
      ParseProviderIDs it ids = .error (.new ("provider ID format unknown: " ++ bad)) ∧
      ParseProviderIDs it' ids' = .error (.new ("provider ID format unknown: " ++ bad'))) ∨
    (∃ names names' : String,
      ParseProviderIDs it ids = .error (.new ("multiple cloud providers found: " ++ names)) ∧
      ParseProviderIDs it' ids' =
        .error (.new ("multiple cloud providers found: " ++ names'))) := by
  by_cases hu : ∃ id ∈ ids, switchCase id = none
  · have hu' : ∃ id ∈ ids', switchCase id = none := by
      obtain ⟨id, hid, hs⟩ := hu
      exact ⟨id, h.mem_iff.mp hid, hs⟩
    obtain ⟨bad, hb⟩ := collectProviders_unknown ids [] hu
    obtain ⟨bad', hb'⟩ := collectProviders_unknown ids' [] hu'
    refine Or.inr (Or.inr (Or.inl ⟨bad, bad', ?_, ?_⟩))
    · unfold ParseProviderIDs; rw [hb]
    · unfold ParseProviderIDs; rw [hb']
  · have hall : ∀ id ∈ ids, switchCase id ≠ none := fun id hid hs => hu ⟨id, hid, hs⟩
    have hall' : ∀ id ∈ ids', switchCase id ≠ none :=
      fun id hid hs => hu ⟨id, h.mem_iff.mpr hid, hs⟩
    have hc := collectProviders_ok ids hall []
    have hc' := collectProviders_ok ids' hall' []
    obtain ⟨hnd, _, hm⟩ := collectProviders_nil_spec _ _ hc
    obtain ⟨hnd', _, hm'⟩ := collectProviders_nil_spec _ _ hc'
    generalize (ids.filterMap switchCase).foldl mapInsert [] = ps at hc hnd hm
    generalize (ids'.filterMap switchCase).foldl mapInsert [] = ps' at hc' hnd' hm'
    have hps : ps.Perm ps' := by
      rw [List.perm_ext_iff_of_nodup hnd hnd']
      intro a
      rw [hm, hm']
      constructor
      · rintro ⟨id, hid, hs⟩; exact ⟨id, h.mem_iff.mp hid, hs⟩
      · rintro ⟨id, hid, hs⟩; exact ⟨id, h.mem_iff.mpr hid, hs⟩
    have hres : (it.order ps).Perm (it'.order ps') :=
      ((it.perm ps).trans hps).trans (it'.perm ps').symm
    unfold ParseProviderIDs
    rw [hc, hc']
    simp only
    generalize it.order ps = res at hres
    generalize it'.order ps' = res' at hres
    match res, hres with
    | [], hres =>
      have := List.Perm.nil_eq hres
      subst this
      exact Or.inr (Or.inl ⟨rfl, rfl⟩)
    | [p], hres =>
      have := List.perm_singleton.mp hres.symm
      subst this
      exact Or.inl ⟨p, rfl, rfl⟩
    | a :: b :: rest, hres =>
      have hl : 1 < (a :: b :: rest).length := by simp
      have hl' : 1 < res'.length := by rw [← hres.length_eq]; exact hl
      refine Or.inr (Or.inr (Or.inr ⟨Join (a :: b :: rest) ", ", Join res' ", ", ?_, ?_⟩))
      · rw [if_pos hl]
      · rw [if_pos hl']

/-- The outcomes of `DetectNodeCloudInfo` on two orderings of the same nodes. -/
theorem DetectNodeCloudInfo_perm_joint (it it' : MapIter) (nodes nodes' : List Node)
    (h : nodes.Perm nodes') :
    (∃ c, DetectNodeCloudInfo it ⟨.ok nodes⟩ = .ok c ∧
      DetectNodeCloudInfo it' ⟨.ok nodes'⟩ = .ok c) ∨
    (DetectNodeCloudInfo it ⟨.ok nodes⟩ = .panic ∧
      DetectNodeCloudInfo it' ⟨.ok nodes'⟩ = .panic) ∨
    (∃ e e', DetectNodeCloudInfo it ⟨.ok nodes⟩ = .error e ∧
      DetectNodeCloudInfo it' ⟨.ok nodes'⟩ = .error e' ∧ SameKind e e') := by
  by_cases hne : nodes = []
  · subst hne
    have hn := List.Perm.nil_eq h
    subst hn
    exact Or.inr (Or.inr ⟨_, _, rfl, rfl, Or.inl ⟨rfl, rfl⟩⟩)
  have hne' : nodes' ≠ [] := fun e => hne (by rw [e] at h; exact List.Perm.eq_nil h)
  rw [DetectNodeCloudInfo_eq it nodes hne, DetectNodeCloudInfo_eq it' nodes' hne']
  rcases ParseProviderIDs_perm it it' _ _ (perm_providerIDs nodes nodes' h) with
    ⟨p, hp, hp'⟩ | ⟨hp, hp'⟩ | ⟨bad, bad', hp, hp'⟩ | ⟨names, names', hp, hp'⟩
  · rw [hp, hp']
    simp only
    have hr := perm_firstSeen _ _ (perm_regionLabels nodes nodes' h)
    generalize firstSeen (regionLabels nodes) = R at hr
    generalize firstSeen (regionLabels nodes') = R' at hr
    by_cases hlen : R.length ≠ 1
    · have hlen' : R'.length ≠ 1 := by rw [← hr.length_eq]; exact hlen
      rw [if_pos hlen, if_pos hlen']
      exact Or.inr (Or.inr ⟨_, _, rfl, rfl, Or.inr (Or.inr (Or.inr ⟨_, _, rfl, rfl⟩))⟩)
    · match R, hr, hlen with
      | [r], hr, _ =>
        have := List.perm_singleton.mp hr.symm
        subst this
        exact Or.inl ⟨_, rfl, rfl⟩
      | [], _, hlen => simp at hlen
      | _ :: _ :: _, _, hlen => simp at hlen
  · rw [hp, hp']
    exact Or.inr (Or.inl ⟨rfl, rfl⟩)
  · rw [hp, hp']
    exact Or.inr (Or.inr ⟨_, _, rfl, rfl, Or.inr (Or.inl ⟨_, _, rfl, rfl⟩)⟩)
  · rw [hp, hp']
    exact Or.inr (Or.inr ⟨_, _, rfl, rfl, Or.inr (Or.inr (Or.inl ⟨_, _, rfl, rfl⟩))⟩)

/-- C20: for a node list and a permutation of it (each call with its own map
iteration order), `DetectNodeCloudInfo` succeeds on one ordering exactly when it
succeeds on the other, with the identical `CloudInfo`, and when it returns an
error on one it returns an error of the same kind on the other (no nodes,
unknown provider ID format, multiple providers, multiple regions). -/
theorem DetectNodeCloudInfo_perm (it it' : MapIter) (nodes nodes' : List Node)
    (h : nodes.Perm nodes') :
    (∀ c, DetectNodeCloudInfo it ⟨.ok nodes⟩ = .ok c ↔
      DetectNodeCloudInfo it' ⟨.ok nodes'⟩ = .ok c) ∧
    (∀ e, DetectNodeCloudInfo it ⟨.ok nodes⟩ = .error e →
      ∃ e', DetectNodeCloudInfo it' ⟨.ok nodes'⟩ = .error e' ∧ SameKind e e') ∧
    (∀ e', DetectNodeCloudInfo it' ⟨.ok nodes'⟩ = .error e' →
      ∃ e, DetectNodeCloudInfo it ⟨.ok nodes⟩ = .error e ∧ SameKind e e') := by
  rcases DetectNodeCloudInfo_perm_joint it it' nodes nodes' h with
    ⟨c, h1, h2⟩ | ⟨h1, h2⟩ | ⟨e, e', h1, h2, hk⟩
  · rw [h1, h2]
    refine ⟨fun _ => Iff.rfl, ?_, ?_⟩
    · intro x hx; cases hx
    · intro x hx; cases hx
  · rw [h1, h2]
    refine ⟨fun _ => ?_, ?_, ?_⟩
    · constructor <;> intro h <;> cases h
    · intro x hx; cases hx
    · intro x hx; cases hx
  · rw [h1, h2]
    refine ⟨fun _ => ?_, fun x hx => ?_, fun x hx => ?_⟩
    · constructor <;> intro h <;> cases h
    · injection hx with hx
      subst hx
      exact ⟨e', rfl, hk⟩
    · injection hx with hx
      subst hx
      exact ⟨e, rfl, hk⟩

/-- Witness for C20: the nodes of the multiple-regions test in both orders, one
call iterating its map in insertion order and the other in reverse. -/
theorem DetectNodeCloudInfo_perm_witness :
    ∃ e', DetectNodeCloudInfo reverseOrder ⟨.ok [awsEastNode, awsWestNode]⟩ = .error e' ∧
      SameKind (.new "multiple regions found: [us-west-2 us-east-1]") e' :=
  (DetectNodeCloudInfo_perm insertionOrder reverseOrder [awsWestNode, awsEastNode]
    [awsEastNode, awsWestNode] (List.Perm.swap _ _ _)).2.1 _ (by decide)

/-! ## ParseProviderIDs against ParseProviderID -/

theorem ParseProviderID_ok_iff_hasScheme (id p : String) :
    ParseProviderID id = .ok p ↔ HasScheme id p := by
  constructor
  · intro h
    rcases ParseProviderID_ok_cases id p h with ⟨hp, r, hr⟩ | ⟨hp, r, hr⟩ | ⟨hp, r, hr⟩
    · exact ⟨"aws://", r, by rw [hp]; decide, hr⟩
    · exact ⟨"azure://", r, by rw [hp]; decide, hr⟩
    · exact ⟨"gce://", r, by rw [hp]; decide, hr⟩
  · rintro ⟨scheme, rest, hm, hr⟩
    simp only [recognisedSchemes, List.mem_cons, Prod.mk.injEq, List.mem_singleton,
      List.not_mem_nil, or_false] at hm
    rcases hm with ⟨rfl, rfl⟩ | ⟨rfl, rfl⟩ | ⟨rfl, rfl⟩
    · rw [hr]; exact ParseProviderID_aws rest
    · rw [hr]; exact ParseProviderID_azure rest
    · rw [hr]; exact ParseProviderID_gce rest

theorem ParseProviderIDs_ok_iff (it : MapIter) (ids : List String) (p : String)
    (hne : ids ≠ []) :
    ParseProviderIDs it ids = .ok p ↔ ∀ id ∈ ids, ParseProviderID id = .ok p := by
  constructor
  · intro h id hid
    exact (ParseProviderID_ok_iff_hasScheme id p).mpr
      ((switchCase_eq_some_iff id p).mp ((ParseProviderIDs_ok_inv it ids p h).2 id hid))
  · intro h
    apply ParseProviderIDs_single it ids p hne
    intro id hid
    exact (switchCase_eq_some_iff id p).mpr ((ParseProviderID_ok_iff_hasScheme id p).mp (h id hid))

theorem ParseProviderIDs_singleton_cases (it : MapIter) (id : String) :
    (∃ p, ParseProviderIDs it [id] = .ok p) ∨ (∃ e, ParseProviderIDs it [id] = .error e) := by
  cases hs : switchCase id with
  | none =>
    refine Or.inr ⟨.new ("provider ID format unknown: " ++ id), ?_⟩
    unfold ParseProviderIDs
    rw [collectProviders_cons, hs]
  | some q =>
    refine Or.inl ⟨q, ParseProviderIDs_single it [id] q (by simp) ?_⟩
    intro x hx
    rw [List.mem_singleton.mp hx]
    exact hs

/-- C21: on a non-empty list of identifiers `ParseProviderIDs` succeeds with `p`
exactly when `ParseProviderID` succeeds with `p` on every element, although one
matches a prefix and the other splits on the first "://"; on a single
identifier the two both succeed with the same name or both return an error. -/
theorem ParseProviderIDs_refines (it : MapIter) (ids : List String) (p id : String)
    (hne : ids ≠ []) :
    (ParseProviderIDs it ids = .ok p ↔ ∀ x ∈ ids, ParseProviderID x = .ok p) ∧
    ((∃ q, ParseProviderID id = .ok q ∧ ParseProviderIDs it [id] = .ok q) ∨
      (∃ e e', ParseProviderID id = .error e ∧ ParseProviderIDs it [id] = .error e')) := by
  refine ⟨ParseProviderIDs_ok_iff it ids p hne, ?_⟩
  have hone : ∀ q, ParseProviderIDs it [id] = .ok q ↔ ParseProviderID id = .ok q := by
    intro q
    rw [ParseProviderIDs_ok_iff it [id] q (by simp)]
    simp
  cases hp : ParseProviderID id with
  | ok q => exact Or.inl ⟨q, rfl, (hone q).mpr hp⟩
  | error e =>
    rcases ParseProviderIDs_singleton_cases it id with ⟨q, hq⟩ | ⟨e', he'⟩
    · rw [(hone q).mp hq] at hp
      cases hp
    · exact Or.inr ⟨e, e', rfl, he'⟩

/-- Witness for C21: the two AWS identifiers of the repository's test as the
list, and the unknown identifier "unknown://format" as the single string. -/
theorem ParseProviderIDs_refines_witness :
    (ParseProviderIDs reverseOrder
        ["aws:///us-west-2a/i-1234567890abcdef0", "aws:///us-east-1a/i-0987654321fedcba0"] =
        .ok "aws" ↔
      ∀ x ∈ ["aws:///us-west-2a/i-1234567890abcdef0", "aws:///us-east-1a/i-0987654321fedcba0"],
        ParseProviderID x = .ok "aws") ∧
    ((∃ q, ParseProviderID "unknown://format" = .ok q ∧
        ParseProviderIDs reverseOrder ["unknown://format"] = .ok q) ∨
      (∃ e e', ParseProviderID "unknown://format" = .error e ∧
        ParseProviderIDs reverseOrder ["unknown://format"] = .error e')) :=
  ParseProviderIDs_refines reverseOrder
    ["aws:///us-west-2a/i-1234567890abcdef0", "aws:///us-east-1a/i-0987654321fedcba0"]
    "aws" "unknown://format" (by simp)

/-! ## A 200 answer commits the prober -/

/-- C22: when the AWS attempt misses and the Azure request gets status 200 with
a body that the JSON decoder rejects, the prober fails with "failed to decode
Azure location: " and the decoder's error wrapped; the requests issued are the
AWS one and the Azure one, so the GCP endpoint is not asked, whatever it would
answer. -/
theorem DetectIMDS_azure_commits (lib : Lib) (client : IMDSClient) (config : IMDSConfig)
    (body : Except GoError String) (e : GoError)
    (hu1 : lib.urlError config.AWSEndpoint = none) (hm1 : Misses client (awsRequest config))
    (hu2 : lib.urlError config.AzureEndpoint = none)
    (h2 : client.Do (azureRequest config) = .ok { StatusCode := 200, Body := body })
    (hd : lib.decodeLocation body = .error e) :
    DetectIMDSCloudInfoWithClient lib client config =
      ([awsRequest config, azureRequest config],
        .error (.wrap ("failed to decode Azure location: " ++ e.Error) e)) := by
  rw [imds_after_aws lib client config hu1 hm1, NewRequestWithContext_ok lib _ hu2]
  simp only
  have := okResponse_of_ok client _ _ h2
  unfold azureRequest at this
  have e1 : ({ Method := "GET", URL := config.AzureEndpoint, Header := [] } : Request).setHeader
      "Metadata" "true" = azureRequest config := rfl
  rw [e1]
  unfold azureRequest
  rw [this]
  simp only [hd]

theorem misses_except (url body : String) (req : Request) (h : req.URL = url) :
    Misses (exceptClient url body) req := by
  intro resp hr
  simp only [exceptClient, if_pos h] at hr
  injection hr with hr
  rw [← hr]
  decide

/-- Witness for C22: a server that answers 404 at the AWS URL and 200 with a
well-formed zone path at every other URL; the Azure answer is not JSON, and the
GCP endpoint, which would answer 200 with that zone path, is not asked. -/
theorem DetectIMDS_azure_commits_witness :
    (exceptClient testConfig.AWSEndpoint "projects/123456789/zones/us-central1-a").Do
        (gcpRequest testConfig) =
      .ok { StatusCode := 200, Body := .ok "projects/123456789/zones/us-central1-a" } ∧
    DetectIMDSCloudInfoWithClient testLib
        (exceptClient testConfig.AWSEndpoint "projects/123456789/zones/us-central1-a")
        testConfig =
      ([awsRequest testConfig, azureRequest testConfig],
        .error (.wrap
          "failed to decode Azure location: invalid character looking for beginning of value"
          (.new "invalid character looking for beginning of value"))) :=
  ⟨rfl, DetectIMDS_azure_commits testLib
    (exceptClient testConfig.AWSEndpoint "projects/123456789/zones/us-central1-a") testConfig
    (.ok "projects/123456789/zones/us-central1-a")
    (.new "invalid character looking for beginning of value")
    rfl (misses_except _ _ _ rfl) rfl rfl rfl⟩

end cloudinfo
